import Mathlib

/-!
MedGemma llama.cpp bridge: session lifecycle and completion loop.

A shallow embedding of `voice2rx_sdk/src/main/cpp/medgemma_jni.cpp`.

* The three file-level globals `g_model`, `g_context`, `g_sampler` are the
  fields of `State`; a null pointer is `none`, an address is `some a`.
* Every call into the llama.cpp library is appended to `State.trace`, in call
  order.  The library itself is a parameter (`Llama`): its stateful entry
  points (`llama_model_load_from_file`, `llama_init_from_model`,
  `llama_sampler_chain_init`, `llama_decode`, `llama_sampler_sample`) answer as
  a function of the whole call history, the queries on the immutable
  vocabulary (`llama_tokenize`, `llama_vocab_is_eog`, `llama_token_to_piece`)
  as a function of their arguments.
* A `std::string` is a list of `char`s; `jint`/`int` values are integers, and
  `int` arithmetic is exact: 32-bit overflow of `prompt.size() + 128` and of
  `n_prompt + n_generated` (undefined behaviour in the source, reached only
  beyond 2^31 - 1 tokens in one call) is not represented.
  The JNI string marshalling (`GetStringUTFChars`, `NewStringUTF`) and the
  `LOGI`/`LOGE` diagnostics are outside the model: `generateCompletion`
  returns the `std::string` it hands to `NewStringUTF`.
-/

namespace MedGemma

/-- A C++ `std::string`: a sequence of `char`. -/
abbrev CppString := List Char

/-- One slot of a `llama_batch`: token id, position, sequence ids and the
emit-logits flag. -/
structure BatchEntry where
  token : Int
  pos : Int
  seq_id : List Int
  logits : Bool
deriving DecidableEq, Repr

/-- Modelled from the spec: the `llama_batch` struct of `llama.h` is not part of
the sources; it is "an ordered list of (token id, absolute position, sequence
id, emit-logits flag) tuples".  The list holds the first `n_tokens` slots. -/
abbrev llama_batch := List BatchEntry

/-- Modelled from the spec: `common_batch_add` of `common.h` is not part of the
sources; it stores one more entry after the `n_tokens` present ones. -/
def common_batch_add (batch : llama_batch) (id : Int) (pos : Int) (seq_ids : List Int)
    (logits : Bool) : llama_batch :=
  batch ++ [⟨id, pos, seq_ids, logits⟩]

/-- Modelled from the spec: `common_batch_clear` of `common.h` is not part of the
sources; it resets `n_tokens` to zero. -/
def common_batch_clear (_batch : llama_batch) : llama_batch := []

/-- The assignment `batch.logits[idx] = v`. -/
def setLogits : llama_batch → Nat → Bool → llama_batch
  | [], _, _ => []
  | e :: es, 0, v => { e with logits := v } :: es
  | e :: es, idx + 1, v => e :: setLogits es idx v

/-- The four stages added to the sampler chain by `loadModel` (the float
parameters `0.7f` and `0.95f` are not represented). -/
inductive SamplerStage
  | temp
  | top_k (k : Int)
  | top_p (min_keep : Nat)
  | dist
deriving DecidableEq, Repr

/-- The two `llama_decode` call sites of `generateCompletion`: the prompt loop
(line 135) and the re-feed of a sampled token (line 171). -/
inductive DecodeSite
  | prompt
  | refeed
deriving DecidableEq, Repr

/-- A call into the llama.cpp library, with its arguments and its result. -/
inductive Event
  | model_load_from_file (path : CppString) (n_gpu_layers : Int) (ret : Option Nat)
  | init_from_model (model : Nat) (n_ctx n_batch n_threads : Int) (ret : Option Nat)
  | sampler_chain_init (ret : Nat)
  | sampler_chain_add (chain : Nat) (stage : SamplerStage)
  | sampler_free (smpl : Nat)
  | free (ctx : Nat)
  | model_free (model : Nat)
  | tokenize (vocab : Nat) (text : CppString) (n_tokens_max : Int) (ret : Int)
  | memory_clear (ctx : Nat)
  | batch_init (n_tokens : Int)
  | batch_free
  | decode (site : DecodeSite) (ctx : Nat) (batch : llama_batch) (ret : Int)
  | sampler_sample (smpl ctx : Nat) (idx : Int) (ret : Int)
  | sampler_accept (smpl : Nat) (token : Int)
deriving DecidableEq, Repr

/-- The llama.cpp library, as far as the bridge calls it.  The first argument of
a stateful entry point is the history of calls made so far. -/
structure Llama where
  model_load_from_file : List Event → CppString → Int → Option Nat
  init_from_model : List Event → Nat → Int → Int → Int → Option Nat
  sampler_chain_init : List Event → Nat
  model_get_vocab : Nat → Nat
  /-- Returns the `int` result and the token ids written to the buffer. -/
  tokenize : Nat → CppString → Int → Int × List Int
  decode : List Event → Nat → llama_batch → Int
  sampler_sample : List Event → Nat → Nat → Int → Int
  vocab_is_eog : Nat → Int → Bool
  /-- Returns the `int` result and the contents of the output buffer. -/
  token_to_piece : Nat → Int → Int → Int × List Char

/-- The globals of the translation unit and the history of library calls. -/
structure State where
  g_model : Option Nat
  g_context : Option Nat
  g_sampler : Option Nat
  trace : List Event
deriving DecidableEq, Repr

/-- The state at process start: the three globals are `nullptr`. -/
def State.init : State := ⟨none, none, none, []⟩

/-- The function `Java_..._LlamaCppBridge_loadModel`.  Each library result is
stored in its global before it is tested: a failed model load leaves `g_model`
null (line 57), a failed context creation leaves `g_context` null (line 72) and
then nulls `g_model` after freeing the model (lines 75-76). -/
def loadModel (L : Llama) (s : State) (model_path : CppString)
    (nCtx nThreads nGpuLayers : Int) : Bool × State :=
  let m := L.model_load_from_file s.trace model_path nGpuLayers
  let t1 := s.trace ++ [Event.model_load_from_file model_path nGpuLayers m]
  match m with
  | none => (false, { s with g_model := none, trace := t1 })
  | some model =>
    let c := L.init_from_model t1 model nCtx 512 nThreads
    let t2 := t1 ++ [Event.init_from_model model nCtx 512 nThreads c]
    match c with
    | none =>
      (false, { s with g_model := none, g_context := none,
                       trace := t2 ++ [Event.model_free model] })
    | some ctx =>
      let smpl := L.sampler_chain_init t2
      let t3 := t2 ++ [Event.sampler_chain_init smpl,
        Event.sampler_chain_add smpl SamplerStage.temp,
        Event.sampler_chain_add smpl (SamplerStage.top_k 40),
        Event.sampler_chain_add smpl (SamplerStage.top_p 1),
        Event.sampler_chain_add smpl SamplerStage.dist]
      (true, { g_model := some model, g_context := some ctx, g_sampler := some smpl,
               trace := t3 })

/-- The call `v.resize(n)` on a `std::vector<llama_token>`, and with `v` the
written prefix also the zero-filled construction `tokens(n)`. -/
def vector_resize (v : List Int) (n : Nat) : List Int :=
  v.take n ++ List.replicate (n - v.length) 0

/-- The prompt loop `for (int i = 0; i < n_prompt; i++)` of `generateCompletion`,
started at index `i` with `tokens[i..]` still to visit; `tokens` has `n_prompt`
entries, so nothing is left to visit exactly when `i = n_prompt`.  Returns
whether every decode succeeded, the batch, and the history; on a failed decode
the batch is freed here, as in the source. -/
def promptLoop (L : Llama) (ctx : Nat) (n_prompt : Int) :
    List Int → Int → llama_batch → List Event → Bool × llama_batch × List Event
  | [], _, batch, tr => (true, batch, tr)
  | tok :: rest, i, batch, tr =>
    let batch := common_batch_add batch tok i [0] false
    if (batch.length : Int) ≥ 512 ∨ i = n_prompt - 1 then
      let batch := if i = n_prompt - 1 then setLogits batch (batch.length - 1) true else batch
      let r := L.decode tr ctx batch
      let tr := tr ++ [Event.decode DecodeSite.prompt ctx batch r]
      if r ≠ 0 then (false, batch, tr ++ [Event.batch_free])
      else promptLoop L ctx n_prompt rest (i + 1) (common_batch_clear batch) tr
    else promptLoop L ctx n_prompt rest (i + 1) batch tr

/-- The loop `while (n_generated < maxTokens)` of `generateCompletion`.  The
first numeric argument bounds the number of iterations still allowed; the loop
is run with `maxTokens - n_generated` of them, which it never exceeds. -/
def genLoop (L : Llama) (vocab ctx smpl : Nat) (n_prompt maxTokens : Int) :
    Nat → Int → CppString → llama_batch → List Event → CppString × List Event
  | 0, _, result, _, tr => (result, tr)
  | fuel + 1, n_generated, result, batch, tr =>
    if n_generated < maxTokens then
      let new_token := L.sampler_sample tr smpl ctx (-1)
      let tr := tr ++ [Event.sampler_sample smpl ctx (-1) new_token,
                       Event.sampler_accept smpl new_token]
      if L.vocab_is_eog vocab new_token then (result, tr)
      else
        let p := L.token_to_piece vocab new_token 128
        let result := if p.1 > 0 then result ++ p.2.take p.1.toNat else result
        let batch := common_batch_add (common_batch_clear batch) new_token
          (n_prompt + n_generated) [0] true
        let r := L.decode tr ctx batch
        let tr := tr ++ [Event.decode DecodeSite.refeed ctx batch r]
        if r ≠ 0 then (result, tr)
        else genLoop L vocab ctx smpl n_prompt maxTokens fuel (n_generated + 1) result batch tr
    else (result, tr)

/-- The function `Java_..._LlamaCppBridge_generateCompletion`.  The vector
`tokens` is built zero-filled with `n_prompt_max` slots, receives the ids the
tokenizer wrote, and is resized to `n_prompt`. -/
def generateCompletion (L : Llama) (s : State) (prompt : CppString) (maxTokens : Int) :
    CppString × State :=
  match s.g_model, s.g_context, s.g_sampler with
  | some model, some ctx, some smpl =>
    let vocab := L.model_get_vocab model
    let n_prompt_max : Int := (prompt.length : Int) + 128
    let tk := L.tokenize vocab prompt n_prompt_max
    let n_prompt := tk.1
    let t1 := s.trace ++ [Event.tokenize vocab prompt n_prompt_max n_prompt]
    if n_prompt < 0 then ([], { s with trace := t1 })
    else
      let tokens := vector_resize (vector_resize tk.2 n_prompt_max.toNat) n_prompt.toNat
      let t2 := t1 ++ [Event.memory_clear ctx]
      let t3 := t2 ++ [Event.batch_init 512]
      match promptLoop L ctx n_prompt tokens 0 [] t3 with
      | (false, _, t4) => ([], { s with trace := t4 })
      | (true, batch, t4) =>
        let g := genLoop L vocab ctx smpl n_prompt maxTokens maxTokens.toNat 0 [] batch t4
        (g.1, { s with trace := g.2 ++ [Event.batch_free] })
  | _, _, _ => ([], s)

/-- The function `Java_..._LlamaCppBridge_unload`. -/
def unload (s : State) : State :=
  let s := match s.g_sampler with
    | some smpl => { s with g_sampler := none, trace := s.trace ++ [Event.sampler_free smpl] }
    | none => s
  let s := match s.g_context with
    | some ctx => { s with g_context := none, trace := s.trace ++ [Event.free ctx] }
    | none => s
  match s.g_model with
  | some model => { s with g_model := none, trace := s.trace ++ [Event.model_free model] }
  | none => s

/-- The text that one loop iteration appends for a sampled token: the first
`n_chars` bytes of `piece_buf` when `n_chars > 0`, nothing otherwise. -/
def fragment (L : Llama) (vocab : Nat) (token : Int) : CppString :=
  let p := L.token_to_piece vocab token 128
  if p.1 > 0 then p.2.take p.1.toNat else []

/-- A small scripted library for concrete runs: loading succeeds for the path
`model.gguf`, context creation for a positive window; handles are fresh; the
tokenizer maps each `char` to its code; a decode fails exactly when the batch
holds token 33 or token 133; the `k`-th sample of the history is `samples[k]`,
and token 2 (also the default once the script is over) is end-of-generation;
a token from 100 on has the two-byte piece `ok`, a smaller one an empty piece. -/
def scripted (samples : List Int) : Llama where
  model_load_from_file tr path _ :=
    if path = ['m', 'o', 'd', 'e', 'l', '.', 'g', 'g', 'u', 'f'] then some (tr.length + 1) else none
  init_from_model tr _ n_ctx _ _ := if 0 < n_ctx then some (tr.length + 1) else none
  sampler_chain_init tr := tr.length + 1
  model_get_vocab m := m
  tokenize _ text n_max :=
    if (text.length : Int) ≤ n_max then (text.length, text.map (fun c => (c.toNat : Int)))
    else (-(text.length : Int), [])
  decode _ _ batch := if batch.any (fun e => e.token == 33 || e.token == 133) then 1 else 0
  sampler_sample tr _ _ _ :=
    samples.getD (tr.filter (fun e => match e with
      | Event.sampler_sample _ _ _ _ => true
      | _ => false)).length 2
  vocab_is_eog _ tok := tok == 2
  token_to_piece _ tok _ := if tok < 100 then (0, []) else (2, ['o', 'k', '!'])

/-- The scripted library with a decoder that always succeeds. -/
def obliging (samples : List Int) : Llama :=
  { scripted samples with decode := fun _ _ _ => 0 }

/-- The path the scripted library accepts. -/
def goodPath : CppString := ['m', 'o', 'd', 'e', 'l', '.', 'g', 'g', 'u', 'f']

/-! ## Observations on a call history -/

/-- The events a call appended: the history after it, without the history
before it. -/
def callEvents (before after : State) : List Event :=
  after.trace.drop before.trace.length

/-- The batches submitted by the prompt loop, with the result of each decode. -/
def promptDecodes (evs : List Event) : List (llama_batch × Int) :=
  evs.filterMap fun e => match e with
    | Event.decode DecodeSite.prompt _ b r => some (b, r)
    | _ => none

/-- The batches submitted by the re-feed step, with the result of each decode. -/
def refeedDecodes (evs : List Event) : List (llama_batch × Int) :=
  evs.filterMap fun e => match e with
    | Event.decode DecodeSite.refeed _ b r => some (b, r)
    | _ => none

/-- The tokens returned by `llama_sampler_sample`, in call order. -/
def sampledTokens (evs : List Event) : List Int :=
  evs.filterMap fun e => match e with
    | Event.sampler_sample _ _ _ t => some t
    | _ => none

/-- The number of `llama_batch_free` calls. -/
def batchFrees (evs : List Event) : Nat :=
  evs.count Event.batch_free

/-- The entries the prompt loop is to submit for `tokens[i..]`: token, absolute
position, sequence id 0, and the emit-logits flag on index `n_prompt - 1` only. -/
def promptEntries (n_prompt : Int) : Int → List Int → List BatchEntry
  | _, [] => []
  | i, tok :: rest =>
    ⟨tok, i, [0], decide (i = n_prompt - 1)⟩ :: promptEntries n_prompt (i + 1) rest

/-- The decode events of one call site for a list of batches and results. -/
def decodeEvents (site : DecodeSite) (ctx : Nat) (ds : List (llama_batch × Int)) : List Event :=
  ds.map fun d => Event.decode site ctx d.1 d.2

/-- The events of successive iterations of the generation loop that reach the
re-feed step, for the sampled tokens and decode results `its`, the first of them
run with `n_generated = k`. -/
def refeedEvents (ctx smpl : Nat) (n_prompt : Int) : Int → List (Int × Int) → List Event
  | _, [] => []
  | k, (t, r) :: its =>
    [Event.sampler_sample smpl ctx (-1) t, Event.sampler_accept smpl t,
     Event.decode DecodeSite.refeed ctx [⟨t, n_prompt + k, [0], true⟩] r]
      ++ refeedEvents ctx smpl n_prompt (k + 1) its

/-- The events of an iteration that stops on an end-of-generation token. -/
def stopEvents (ctx smpl : Nat) : Option Int → List Event
  | none => []
  | some t => [Event.sampler_sample smpl ctx (-1) t, Event.sampler_accept smpl t]

/-! ## Live resources and call sequences -/

/-- The models, contexts and sampler chains created and not yet freed. -/
structure Live where
  models : List Nat
  contexts : List Nat
  samplers : List Nat
deriving DecidableEq, Repr

/-- The effect of one library call on the live resources. -/
def Live.step (a : Live) : Event → Live
  | Event.model_load_from_file _ _ (some m) => { a with models := a.models ++ [m] }
  | Event.init_from_model _ _ _ _ (some c) => { a with contexts := a.contexts ++ [c] }
  | Event.sampler_chain_init smpl => { a with samplers := a.samplers ++ [smpl] }
  | Event.model_free m => { a with models := a.models.erase m }
  | Event.free c => { a with contexts := a.contexts.erase c }
  | Event.sampler_free smpl => { a with samplers := a.samplers.erase smpl }
  | _ => a

/-- The live resources after a history of calls. -/
def alive (tr : List Event) : Live :=
  tr.foldl Live.step ⟨[], [], []⟩

/-- A call of one of the three session operations of the bridge. -/
inductive Op
  | loadModel (model_path : CppString) (nCtx nThreads nGpuLayers : Int)
  | generateCompletion (prompt : CppString) (maxTokens : Int)
  | unload
deriving DecidableEq, Repr

/-- The state after one call. -/
def step (L : Llama) (s : State) : Op → State
  | Op.loadModel p c t g => (loadModel L s p c t g).2
  | Op.generateCompletion p m => (generateCompletion L s p m).2
  | Op.unload => unload s

/-- The state after a sequence of calls. -/
def run (L : Llama) (s : State) (ops : List Op) : State :=
  ops.foldl (step L) s

/-- Every `loadModel` call of the sequence is made while `g_model` is null. -/
def loadsOnlyUnloaded (L : Llama) : State → List Op → Bool
  | _, [] => true
  | s, Op.loadModel p c t g :: ops =>
    s.g_model.isNone && loadsOnlyUnloaded L (loadModel L s p c t g).2 ops
  | s, op :: ops => loadsOnlyUnloaded L (step L s op) ops

/-- The session resource invariant: at most one model, one context and one
sampler chain are live, and each live one is the one the globals hold. -/
def SessionInv (s : State) : Prop :=
  ((alive s.trace).models.length ≤ 1 ∧ ∀ m ∈ (alive s.trace).models, s.g_model = some m) ∧
  ((alive s.trace).contexts.length ≤ 1 ∧ ∀ c ∈ (alive s.trace).contexts, s.g_context = some c) ∧
  ((alive s.trace).samplers.length ≤ 1 ∧ ∀ x ∈ (alive s.trace).samplers, s.g_sampler = some x)

/-- The events of `unload` on a state: each held resource freed once, sampler
chain first, then context, then model. -/
def unloadEvents (s : State) : List Event :=
  (s.g_sampler.toList.map Event.sampler_free) ++ (s.g_context.toList.map Event.free)
    ++ (s.g_model.toList.map Event.model_free)

/-- The `int n_prompt` of `generateCompletion`: the result of `llama_tokenize`
on the prompt with the vocabulary of `model`. -/
def promptCount (L : Llama) (model : Nat) (prompt : CppString) : Int :=
  (L.tokenize (L.model_get_vocab model) prompt ((prompt.length : Int) + 128)).1

/-- The vector `tokens` of `generateCompletion` after `tokens.resize(n_prompt)`. -/
def promptTokens (L : Llama) (model : Nat) (prompt : CppString) : List Int :=
  vector_resize
    (vector_resize (L.tokenize (L.model_get_vocab model) prompt ((prompt.length : Int) + 128)).2
      ((prompt.length : Int) + 128).toNat)
    (promptCount L model prompt).toNat

/-- The vocabulary `generateCompletion` works with: that of the held model
(no vocabulary is consulted when no model is held). -/
def sessionVocab (L : Llama) (s : State) : Nat :=
  match s.g_model with
  | some model => L.model_get_vocab model
  | none => 0

/-- The events `generateCompletion` emits before the prompt loop. -/
def preludeEvents (L : Llama) (model ctx : Nat) (prompt : CppString) : List Event :=
  [Event.tokenize (L.model_get_vocab model) prompt ((prompt.length : Int) + 128)
      (promptCount L model prompt),
   Event.memory_clear ctx, Event.batch_init 512]

/-- The state after a successful `loadModel` on the scripted library: model 1,
context 2, sampler chain 3. -/
def loadedState : State :=
  (loadModel (scripted []) State.init goodPath 128 1 0).2

/-- The library calls made by one `generateCompletion` call. -/
def generateEvents (L : Llama) (s : State) (prompt : CppString) (maxTokens : Int) : List Event :=
  callEvents s (generateCompletion L s prompt maxTokens).2

/-- The invariant kept by disciplined call sequences: the live resources are
exactly the held ones, and a session without a model holds nothing at all. -/
def StrongInv (s : State) : Prop :=
  alive s.trace = ⟨s.g_model.toList, s.g_context.toList, s.g_sampler.toList⟩ ∧
  (s.g_model = none → s.g_context = none ∧ s.g_sampler = none)

/-- A call sequence on the scripted library in which every `loadModel` finds
`g_model` null: a load, a completion, an unload, two failing loads (weights,
then context), another load and a final unload. -/
def disciplinedOps : List Op :=
  [Op.loadModel goodPath 128 1 0, Op.generateCompletion ['H', 'i'] 2, Op.unload,
   Op.loadModel [] 128 1 0, Op.loadModel goodPath 0 1 0, Op.loadModel goodPath 128 1 0,
   Op.unload]

/-- A prompt of 513 `char`s: one more token than a batch holds. -/
def longPrompt : CppString := List.replicate 513 'a'

/-! ## Auxiliary facts -/

theorem setLogits_concat (b : llama_batch) (e : BatchEntry) (v : Bool) :
    setLogits (b ++ [e]) b.length v = b ++ [{ e with logits := v }] := by
  induction b with
  | nil => rfl
  | cons x xs ih => simp [setLogits, ih]

/-- The batch the prompt loop submits for index `i`: the pending entries and
the new one, flagged when `i` is the last index. -/
theorem flushed_batch (batch : llama_batch) (tok i n_prompt : Int) :
    (if i = n_prompt - 1 then
        setLogits (common_batch_add batch tok i [0] false)
          ((common_batch_add batch tok i [0] false).length - 1) true
      else common_batch_add batch tok i [0] false)
      = batch ++ [⟨tok, i, [0], decide (i = n_prompt - 1)⟩] := by
  have h : (common_batch_add batch tok i [0] false).length - 1 = batch.length := by
    simp [common_batch_add]
  rw [h]
  by_cases hi : i = n_prompt - 1
  · simp only [hi, if_true, common_batch_add, setLogits_concat, decide_True]
  · simp only [hi, if_false, common_batch_add, decide_False]

theorem promptLoop_flush_ok (L : Llama) (ctx : Nat) (n_prompt : Int) (tok : Int)
    (rest : List Int) (i : Int) (batch : llama_batch) (tr : List Event)
    (hflush : ((batch.length : Int) + 1 ≥ 512) ∨ i = n_prompt - 1)
    (hr : L.decode tr ctx (batch ++ [⟨tok, i, [0], decide (i = n_prompt - 1)⟩]) = 0) :
    promptLoop L ctx n_prompt (tok :: rest) i batch tr
      = promptLoop L ctx n_prompt rest (i + 1) []
          (tr ++ [Event.decode DecodeSite.prompt ctx
            (batch ++ [⟨tok, i, [0], decide (i = n_prompt - 1)⟩]) 0]) := by
  have hf : ((common_batch_add batch tok i [0] false).length : Int) ≥ 512 ∨ i = n_prompt - 1 := by
    simpa [common_batch_add] using hflush
  rw [promptLoop]
  simp only [hf, if_true, flushed_batch, hr, ne_eq, not_true_eq_false, if_false,
    common_batch_clear]

theorem promptLoop_flush_fail (L : Llama) (ctx : Nat) (n_prompt : Int) (tok : Int)
    (rest : List Int) (i : Int) (batch : llama_batch) (tr : List Event)
    (hflush : ((batch.length : Int) + 1 ≥ 512) ∨ i = n_prompt - 1)
    (hr : L.decode tr ctx (batch ++ [⟨tok, i, [0], decide (i = n_prompt - 1)⟩]) ≠ 0) :
    promptLoop L ctx n_prompt (tok :: rest) i batch tr
      = (false, batch ++ [⟨tok, i, [0], decide (i = n_prompt - 1)⟩],
          tr ++ [Event.decode DecodeSite.prompt ctx
            (batch ++ [⟨tok, i, [0], decide (i = n_prompt - 1)⟩])
            (L.decode tr ctx (batch ++ [⟨tok, i, [0], decide (i = n_prompt - 1)⟩]))]
            ++ [Event.batch_free]) := by
  have hf : ((common_batch_add batch tok i [0] false).length : Int) ≥ 512 ∨ i = n_prompt - 1 := by
    simpa [common_batch_add] using hflush
  rw [promptLoop]
  simp only [hf, if_true, flushed_batch, hr, ne_eq, not_false_eq_true]

theorem promptLoop_keep (L : Llama) (ctx : Nat) (n_prompt : Int) (tok : Int)
    (rest : List Int) (i : Int) (batch : llama_batch) (tr : List Event)
    (hflush : ¬ (((batch.length : Int) + 1 ≥ 512) ∨ i = n_prompt - 1)) :
    promptLoop L ctx n_prompt (tok :: rest) i batch tr
      = promptLoop L ctx n_prompt rest (i + 1) (batch ++ [⟨tok, i, [0], false⟩]) tr := by
  have hf : ¬ (((common_batch_add batch tok i [0] false).length : Int) ≥ 512 ∨ i = n_prompt - 1) := by
    simpa [common_batch_add] using hflush
  rw [promptLoop]
  simp only [common_batch_add] at hf ⊢
  rw [if_neg hf]

theorem forall_mem_dropLast_cons {α : Type} (P : α → Prop) (x : α) (l : List α)
    (hx : l ≠ [] → P x) (hl : ∀ d ∈ l.dropLast, P d) : ∀ d ∈ (x :: l).dropLast, P d := by
  cases l with
  | nil => simp
  | cons y ys =>
    intro d hd
    rw [List.dropLast_cons_of_ne_nil (List.cons_ne_nil y ys)] at hd
    rcases List.mem_cons.mp hd with h | h
    · rw [h]; exact hx (List.cons_ne_nil y ys)
    · exact hl d h

theorem promptLoop_spec (L : Llama) (ctx : Nat) (n_prompt : Int) :
    ∀ (rest : List Int) (i : Int) (batch : llama_batch) (tr : List Event),
      i + rest.length = n_prompt → batch.length < 512 → (rest = [] → batch = []) →
      ∃ ds : List (llama_batch × Int),
        (promptLoop L ctx n_prompt rest i batch tr).2.2
            = tr ++ decodeEvents DecodeSite.prompt ctx ds
                ++ (if (promptLoop L ctx n_prompt rest i batch tr).1 then [] else [Event.batch_free]) ∧
        (∀ d ∈ ds.dropLast, d.2 = 0) ∧
        ((promptLoop L ctx n_prompt rest i batch tr).1 = true →
          (∀ d ∈ ds, d.2 = 0) ∧
          (promptLoop L ctx n_prompt rest i batch tr).2.1 = [] ∧
          (ds.map Prod.fst).flatten = batch ++ promptEntries n_prompt i rest ∧
          ds.length = (batch.length + rest.length + 511) / 512 ∧
          (∀ d ∈ ds, d.1.length ≤ 512) ∧
          (∀ d ∈ ds.dropLast, d.1.length = 512)) ∧
        ((promptLoop L ctx n_prompt rest i batch tr).1 = false →
          ∃ d, ds.getLast? = some d ∧ d.2 ≠ 0 ∧ ∃ tr0, d.2 = L.decode tr0 ctx d.1) := by
  intro rest
  induction rest with
  | nil =>
    intro i batch tr _ _ hb
    refine ⟨[], ?_⟩
    simp [promptLoop, decodeEvents, promptEntries, hb rfl]
  | cons tok rest ih =>
    intro i batch tr hlen hsz _
    have hlen1 : (i + 1) + (rest.length : Int) = n_prompt := by
      rw [← hlen]; simp only [List.length_cons]; push_cast; ring
    by_cases hflush : ((batch.length : Int) + 1 ≥ 512) ∨ i = n_prompt - 1
    · by_cases hr : L.decode tr ctx (batch ++ [⟨tok, i, [0], decide (i = n_prompt - 1)⟩]) = 0
      · rw [promptLoop_flush_ok L ctx n_prompt tok rest i batch tr hflush hr]
        obtain ⟨ds, htr, hdl, hok, hfail⟩ := ih (i + 1) []
          (tr ++ [Event.decode DecodeSite.prompt ctx
            (batch ++ [⟨tok, i, [0], decide (i = n_prompt - 1)⟩]) 0]) hlen1 (by simp) (fun _ => rfl)
        refine ⟨(batch ++ [⟨tok, i, [0], decide (i = n_prompt - 1)⟩], 0) :: ds, ?_, ?_, ?_, ?_⟩
        · rw [htr]; simp [decodeEvents]
        · exact forall_mem_dropLast_cons (fun d => d.2 = 0)
            (batch ++ [⟨tok, i, [0], decide (i = n_prompt - 1)⟩], 0) ds (fun _ => rfl) hdl
        · intro hsucc
          obtain ⟨hz, hb, hfl, hn, hle, h512⟩ := hok hsucc
          refine ⟨?_, hb, ?_, ?_, ?_, ?_⟩
          · intro d hd
            rcases List.mem_cons.mp hd with h | h
            · rw [h]
            · exact hz d h
          · simp [hfl, promptEntries]
          · simp only [List.length_cons, hn, List.length_nil]
            omega
          · intro d hd
            rcases List.mem_cons.mp hd with h | h
            · rw [h]; simp; omega
            · exact hle d h
          · refine forall_mem_dropLast_cons (fun d => d.1.length = 512) _ ds ?_ h512
            intro hne
            have hpos : 0 < ds.length := List.length_pos.mpr hne
            simp only [List.length_nil] at hn
            simp only [List.length_append, List.length_singleton]
            omega
        · intro hf
          obtain ⟨d, hd, hne⟩ := hfail hf
          refine ⟨d, ?_, hne⟩
          cases ds with
          | nil => simp at hd
          | cons y ys => simpa using hd
      · rw [promptLoop_flush_fail L ctx n_prompt tok rest i batch tr hflush hr]
        refine ⟨[(batch ++ [⟨tok, i, [0], decide (i = n_prompt - 1)⟩],
          L.decode tr ctx (batch ++ [⟨tok, i, [0], decide (i = n_prompt - 1)⟩]))], ?_, ?_, ?_, ?_⟩
        · simp [decodeEvents]
        · simp
        · intro h; simp at h
        · intro _
          exact ⟨_, rfl, hr, tr, rfl⟩
    · rw [promptLoop_keep L ctx n_prompt tok rest i batch tr hflush]
      have hni : ¬ i = n_prompt - 1 := fun h => hflush (Or.inr h)
      obtain ⟨ds, htr, hdl, hok, hfail⟩ := ih (i + 1) (batch ++ [⟨tok, i, [0], false⟩]) tr hlen1
        (by simp only [List.length_append, List.length_singleton]; omega)
        (by intro h; exfalso; rw [h] at hlen1; simp at hlen1; omega)
      refine ⟨ds, htr, hdl, ?_, hfail⟩
      intro hsucc
      obtain ⟨hz, hb, hfl, hn, hle, h512⟩ := hok hsucc
      refine ⟨hz, hb, ?_, ?_, hle, h512⟩
      · simp [hfl, promptEntries, hni]
      · rw [hn]
        simp only [List.length_append, List.length_cons, List.length_nil]
        omega

theorem append_fragment (L : Llama) (vocab : Nat) (tok : Int) (result : CppString) :
    (if (L.token_to_piece vocab tok 128).1 > 0 then
        result ++ (L.token_to_piece vocab tok 128).2.take (L.token_to_piece vocab tok 128).1.toNat
      else result) = result ++ fragment L vocab tok := by
  unfold fragment
  by_cases h : (L.token_to_piece vocab tok 128).1 > 0
  · simp only [h, if_true]
  · simp only [h, if_false, List.append_nil]

theorem genLoop_exit (L : Llama) (vocab ctx smpl : Nat) (n_prompt maxTokens : Int)
    (fuel : Nat) (n_generated : Int) (result : CppString) (batch : llama_batch)
    (tr : List Event) (h : ¬ n_generated < maxTokens) :
    genLoop L vocab ctx smpl n_prompt maxTokens fuel n_generated result batch tr
      = (result, tr) := by
  cases fuel with
  | zero => rfl
  | succ f => rw [genLoop, if_neg h]

theorem genLoop_eog (L : Llama) (vocab ctx smpl : Nat) (n_prompt maxTokens : Int)
    (fuel : Nat) (n_generated : Int) (result : CppString) (batch : llama_batch)
    (tr : List Event) (h : n_generated < maxTokens)
    (he : L.vocab_is_eog vocab (L.sampler_sample tr smpl ctx (-1)) = true) :
    genLoop L vocab ctx smpl n_prompt maxTokens (fuel + 1) n_generated result batch tr
      = (result, tr ++ [Event.sampler_sample smpl ctx (-1) (L.sampler_sample tr smpl ctx (-1)),
          Event.sampler_accept smpl (L.sampler_sample tr smpl ctx (-1))]) := by
  rw [genLoop, if_pos h]
  simp only [he, if_true]

theorem genLoop_fail (L : Llama) (vocab ctx smpl : Nat) (n_prompt maxTokens : Int)
    (fuel : Nat) (n_generated : Int) (result : CppString) (batch : llama_batch)
    (tr : List Event) (h : n_generated < maxTokens)
    (he : L.vocab_is_eog vocab (L.sampler_sample tr smpl ctx (-1)) = false)
    (hr : L.decode
      (tr ++ [Event.sampler_sample smpl ctx (-1) (L.sampler_sample tr smpl ctx (-1)),
          Event.sampler_accept smpl (L.sampler_sample tr smpl ctx (-1))]) ctx
      [⟨L.sampler_sample tr smpl ctx (-1), n_prompt + n_generated, [0], true⟩] ≠ 0) :
    genLoop L vocab ctx smpl n_prompt maxTokens (fuel + 1) n_generated result batch tr
      = (result ++ fragment L vocab (L.sampler_sample tr smpl ctx (-1)),
         tr ++ [Event.sampler_sample smpl ctx (-1) (L.sampler_sample tr smpl ctx (-1)),
            Event.sampler_accept smpl (L.sampler_sample tr smpl ctx (-1))]
          ++ [Event.decode DecodeSite.refeed ctx
            [⟨L.sampler_sample tr smpl ctx (-1), n_prompt + n_generated, [0], true⟩]
            (L.decode
              (tr ++ [Event.sampler_sample smpl ctx (-1) (L.sampler_sample tr smpl ctx (-1)),
                Event.sampler_accept smpl (L.sampler_sample tr smpl ctx (-1))]) ctx
              [⟨L.sampler_sample tr smpl ctx (-1), n_prompt + n_generated, [0], true⟩])]) := by
  rw [genLoop, if_pos h]
  simp only [he, Bool.false_eq_true, if_false, append_fragment, common_batch_add,
    common_batch_clear, List.nil_append]
  rw [if_pos hr]

theorem genLoop_continue (L : Llama) (vocab ctx smpl : Nat) (n_prompt maxTokens : Int)
    (fuel : Nat) (n_generated : Int) (result : CppString) (batch : llama_batch)
    (tr : List Event) (h : n_generated < maxTokens)
    (he : L.vocab_is_eog vocab (L.sampler_sample tr smpl ctx (-1)) = false)
    (hr : L.decode
      (tr ++ [Event.sampler_sample smpl ctx (-1) (L.sampler_sample tr smpl ctx (-1)),
          Event.sampler_accept smpl (L.sampler_sample tr smpl ctx (-1))]) ctx
      [⟨L.sampler_sample tr smpl ctx (-1), n_prompt + n_generated, [0], true⟩] = 0) :
    genLoop L vocab ctx smpl n_prompt maxTokens (fuel + 1) n_generated result batch tr
      = genLoop L vocab ctx smpl n_prompt maxTokens fuel (n_generated + 1)
          (result ++ fragment L vocab (L.sampler_sample tr smpl ctx (-1)))
          [⟨L.sampler_sample tr smpl ctx (-1), n_prompt + n_generated, [0], true⟩]
          (tr ++ [Event.sampler_sample smpl ctx (-1) (L.sampler_sample tr smpl ctx (-1)),
              Event.sampler_accept smpl (L.sampler_sample tr smpl ctx (-1))]
            ++ [Event.decode DecodeSite.refeed ctx
              [⟨L.sampler_sample tr smpl ctx (-1), n_prompt + n_generated, [0], true⟩] 0]) := by
  rw [genLoop, if_pos h]
  simp only [he, Bool.false_eq_true, if_false, append_fragment, common_batch_add,
    common_batch_clear, List.nil_append]
  rw [if_neg (not_not.mpr hr), hr]

/-- The generation loop does not depend on the iteration bound once the bound
covers `maxTokens - n_generated`: the bound is never what ends the loop. -/
theorem genLoop_fuel (L : Llama) (vocab ctx smpl : Nat) (n_prompt maxTokens : Int) :
    ∀ (fuel fuel' : Nat) (n_generated : Int) (result : CppString) (batch : llama_batch)
      (tr : List Event),
      (maxTokens - n_generated).toNat ≤ fuel → (maxTokens - n_generated).toNat ≤ fuel' →
      genLoop L vocab ctx smpl n_prompt maxTokens fuel n_generated result batch tr
        = genLoop L vocab ctx smpl n_prompt maxTokens fuel' n_generated result batch tr := by
  intro fuel
  induction fuel with
  | zero =>
    intro fuel' n_generated result batch tr h _
    have hn : ¬ n_generated < maxTokens := by omega
    rw [genLoop_exit _ _ _ _ _ _ _ _ _ _ _ hn, genLoop_exit _ _ _ _ _ _ _ _ _ _ _ hn]
  | succ f ih =>
    intro fuel' n_generated result batch tr h h'
    by_cases hn : n_generated < maxTokens
    · cases fuel' with
      | zero => omega
      | succ f' =>
        by_cases he : L.vocab_is_eog vocab (L.sampler_sample tr smpl ctx (-1)) = true
        · rw [genLoop_eog _ _ _ _ _ _ _ _ _ _ _ hn he, genLoop_eog _ _ _ _ _ _ _ _ _ _ _ hn he]
        · have he' := Bool.eq_false_iff.mpr he
          by_cases hr : L.decode
              (tr ++ [Event.sampler_sample smpl ctx (-1) (L.sampler_sample tr smpl ctx (-1)),
                Event.sampler_accept smpl (L.sampler_sample tr smpl ctx (-1))]) ctx
              [⟨L.sampler_sample tr smpl ctx (-1), n_prompt + n_generated, [0], true⟩] = 0
          · rw [genLoop_continue _ _ _ _ _ _ _ _ _ _ _ hn he' hr,
              genLoop_continue _ _ _ _ _ _ _ _ _ _ _ hn he' hr]
            exact ih f' _ _ _ _ (by omega) (by omega)
          · rw [genLoop_fail _ _ _ _ _ _ _ _ _ _ _ hn he' hr,
              genLoop_fail _ _ _ _ _ _ _ _ _ _ _ hn he' hr]
    · rw [genLoop_exit _ _ _ _ _ _ _ _ _ _ _ hn, genLoop_exit _ _ _ _ _ _ _ _ _ _ _ hn]

theorem genLoop_spec (L : Llama) (vocab ctx smpl : Nat) (n_prompt maxTokens : Int) :
    ∀ (fuel : Nat) (n_generated : Int) (result : CppString) (batch : llama_batch)
      (tr : List Event),
      (maxTokens - n_generated).toNat ≤ fuel →
      ∃ (its : List (Int × Int)) (stop : Option Int),
        genLoop L vocab ctx smpl n_prompt maxTokens fuel n_generated result batch tr
          = (result ++ (its.map Prod.fst).flatMap (fragment L vocab),
             tr ++ refeedEvents ctx smpl n_prompt n_generated its ++ stopEvents ctx smpl stop) ∧
        (∀ it ∈ its, L.vocab_is_eog vocab it.1 = false) ∧
        (∀ it ∈ its.dropLast, it.2 = 0) ∧
        its.length ≤ (maxTokens - n_generated).toNat ∧
        ((∃ e, stop = some e ∧ L.vocab_is_eog vocab e = true ∧ (∀ it ∈ its, it.2 = 0) ∧
            its.length < (maxTokens - n_generated).toNat) ∨
         (stop = none ∧ ∃ it, its.getLast? = some it ∧ it.2 ≠ 0) ∨
         (stop = none ∧ (∀ it ∈ its, it.2 = 0) ∧
            its.length = (maxTokens - n_generated).toNat)) := by
  intro fuel
  induction fuel with
  | zero =>
    intro n_generated result batch tr h
    have hn : ¬ n_generated < maxTokens := by omega
    refine ⟨[], none, ?_, by simp, by simp, by simp, Or.inr (Or.inr ⟨rfl, by simp, ?_⟩)⟩
    · simp [genLoop, refeedEvents, stopEvents]
    · simp; omega
  | succ f ih =>
    intro n_generated result batch tr h
    by_cases hn : n_generated < maxTokens
    · by_cases he : L.vocab_is_eog vocab (L.sampler_sample tr smpl ctx (-1)) = true
      · rw [genLoop_eog _ _ _ _ _ _ _ _ _ _ _ hn he]
        refine ⟨[], some (L.sampler_sample tr smpl ctx (-1)), ?_, by simp, by simp, by simp,
          Or.inl ⟨_, rfl, he, by simp, ?_⟩⟩
        · simp [refeedEvents, stopEvents]
        · simp; omega
      · have he' := Bool.eq_false_iff.mpr he
        by_cases hr : L.decode
            (tr ++ [Event.sampler_sample smpl ctx (-1) (L.sampler_sample tr smpl ctx (-1)),
              Event.sampler_accept smpl (L.sampler_sample tr smpl ctx (-1))]) ctx
            [⟨L.sampler_sample tr smpl ctx (-1), n_prompt + n_generated, [0], true⟩] = 0
        · rw [genLoop_continue _ _ _ _ _ _ _ _ _ _ _ hn he' hr]
          obtain ⟨its, stop, heq, heog, hdl, hlen, hcase⟩ := ih (n_generated + 1)
            (result ++ fragment L vocab (L.sampler_sample tr smpl ctx (-1)))
            [⟨L.sampler_sample tr smpl ctx (-1), n_prompt + n_generated, [0], true⟩]
            (tr ++ [Event.sampler_sample smpl ctx (-1) (L.sampler_sample tr smpl ctx (-1)),
                Event.sampler_accept smpl (L.sampler_sample tr smpl ctx (-1))]
              ++ [Event.decode DecodeSite.refeed ctx
                [⟨L.sampler_sample tr smpl ctx (-1), n_prompt + n_generated, [0], true⟩] 0])
            (by omega)
          refine ⟨(L.sampler_sample tr smpl ctx (-1), 0) :: its, stop, ?_, ?_, ?_, ?_, ?_⟩
          · rw [heq]; simp [refeedEvents]
          · intro it hit
            rcases List.mem_cons.mp hit with h1 | h1
            · rw [h1]; exact he'
            · exact heog it h1
          · exact forall_mem_dropLast_cons (fun it => it.2 = 0)
              (L.sampler_sample tr smpl ctx (-1), 0) its (fun _ => rfl) hdl
          · simp only [List.length_cons]; omega
          · rcases hcase with ⟨e, hs, hee, hz, hl⟩ | ⟨hs, it, hlast, hne⟩ | ⟨hs, hz, hl⟩
            · refine Or.inl ⟨e, hs, hee, ?_, by simp only [List.length_cons]; omega⟩
              intro it hit
              rcases List.mem_cons.mp hit with h1 | h1
              · rw [h1]
              · exact hz it h1
            · refine Or.inr (Or.inl ⟨hs, it, ?_, hne⟩)
              cases its with
              | nil => simp at hlast
              | cons y ys => simpa using hlast
            · refine Or.inr (Or.inr ⟨hs, ?_, by simp only [List.length_cons]; omega⟩)
              intro it hit
              rcases List.mem_cons.mp hit with h1 | h1
              · rw [h1]
              · exact hz it h1
        · rw [genLoop_fail _ _ _ _ _ _ _ _ _ _ _ hn he' hr]
          refine ⟨[(L.sampler_sample tr smpl ctx (-1), L.decode
            (tr ++ [Event.sampler_sample smpl ctx (-1) (L.sampler_sample tr smpl ctx (-1)),
              Event.sampler_accept smpl (L.sampler_sample tr smpl ctx (-1))]) ctx
            [⟨L.sampler_sample tr smpl ctx (-1), n_prompt + n_generated, [0], true⟩])], none,
            ?_, ?_, by simp, ?_, Or.inr (Or.inl ⟨rfl, _, rfl, hr⟩)⟩
          · simp [refeedEvents, stopEvents]
          · intro it hit
            rw [List.mem_singleton.mp hit]; exact he'
          · simp; omega
    · rw [genLoop_exit _ _ _ _ _ _ _ _ _ _ _ hn]
      refine ⟨[], none, ?_, by simp, by simp, by simp, Or.inr (Or.inr ⟨rfl, by simp, ?_⟩)⟩
      · simp [refeedEvents, stopEvents]
      · simp; omega

theorem length_vector_resize (v : List Int) (n : Nat) : (vector_resize v n).length = n := by
  simp only [vector_resize, List.length_append, List.length_take, List.length_replicate]
  omega

/-- The shape of a `generateCompletion` call on a loaded session: tokenization
failure, prompt-decode failure, or a completed prompt phase followed by the
generation loop. -/
theorem generateCompletion_anatomy (L : Llama) (s : State) (prompt : CppString)
    (maxTokens : Int) (model ctx smpl : Nat)
    (hm : s.g_model = some model) (hc : s.g_context = some ctx) (hs : s.g_sampler = some smpl) :
    (promptCount L model prompt < 0 ∧
      generateCompletion L s prompt maxTokens
        = ([], { s with trace := s.trace ++ [Event.tokenize (L.model_get_vocab model) prompt
            ((prompt.length : Int) + 128) (promptCount L model prompt)] })) ∨
    (0 ≤ promptCount L model prompt ∧ ∃ (ds : List (llama_batch × Int)) (d : llama_batch × Int),
      generateCompletion L s prompt maxTokens
        = ([], { s with trace := s.trace ++ (preludeEvents L model ctx prompt
            ++ decodeEvents DecodeSite.prompt ctx ds ++ [Event.batch_free]) }) ∧
      (∀ x ∈ ds.dropLast, x.2 = 0) ∧ ds.getLast? = some d ∧ d.2 ≠ 0 ∧
        ∃ tr0, d.2 = L.decode tr0 ctx d.1) ∨
    (0 ≤ promptCount L model prompt ∧
      ∃ (ds : List (llama_batch × Int)) (its : List (Int × Int)) (stop : Option Int),
      generateCompletion L s prompt maxTokens
        = ((its.map Prod.fst).flatMap (fragment L (L.model_get_vocab model)),
           { s with trace := s.trace ++ (preludeEvents L model ctx prompt
            ++ decodeEvents DecodeSite.prompt ctx ds
            ++ refeedEvents ctx smpl (promptCount L model prompt) 0 its
            ++ stopEvents ctx smpl stop ++ [Event.batch_free]) }) ∧
      ((∀ d ∈ ds, d.2 = 0) ∧
        (ds.map Prod.fst).flatten
          = promptEntries (promptCount L model prompt) 0 (promptTokens L model prompt) ∧
        ds.length = ((promptTokens L model prompt).length + 511) / 512 ∧
        (∀ d ∈ ds, d.1.length ≤ 512) ∧
        (∀ d ∈ ds.dropLast, d.1.length = 512)) ∧
      (∀ it ∈ its, L.vocab_is_eog (L.model_get_vocab model) it.1 = false) ∧
      (∀ it ∈ its.dropLast, it.2 = 0) ∧
      its.length ≤ maxTokens.toNat ∧
      ((∃ e, stop = some e ∧ L.vocab_is_eog (L.model_get_vocab model) e = true ∧
          (∀ it ∈ its, it.2 = 0) ∧ its.length < maxTokens.toNat) ∨
       (stop = none ∧ ∃ it, its.getLast? = some it ∧ it.2 ≠ 0) ∨
       (stop = none ∧ (∀ it ∈ its, it.2 = 0) ∧ its.length = maxTokens.toNat))) := by
  by_cases hn : promptCount L model prompt < 0
  · left
    refine ⟨hn, ?_⟩
    have hn' : (L.tokenize (L.model_get_vocab model) prompt ((prompt.length : Int) + 128)).1 < 0 := hn
    simp only [generateCompletion, hm, hc, hs, hn', if_true, promptCount]
  · right
    have hn0 : 0 ≤ promptCount L model prompt := not_lt.mp hn
    have hn' : ¬ (L.tokenize (L.model_get_vocab model) prompt ((prompt.length : Int) + 128)).1 < 0 := hn
    have hlen : (0 : Int) + ((promptTokens L model prompt).length : Int)
        = promptCount L model prompt := by
      rw [promptTokens, length_vector_resize]; omega
    obtain ⟨ds, htr, hdl, hok, hfail⟩ := promptLoop_spec L ctx (promptCount L model prompt)
      (promptTokens L model prompt) 0 []
      (s.trace ++ [Event.tokenize (L.model_get_vocab model) prompt ((prompt.length : Int) + 128)
        (promptCount L model prompt)] ++ [Event.memory_clear ctx] ++ [Event.batch_init 512])
      hlen (by simp) (fun _ => rfl)
    have hgc : generateCompletion L s prompt maxTokens
        = match promptLoop L ctx (promptCount L model prompt) (promptTokens L model prompt) 0 []
            (s.trace ++ [Event.tokenize (L.model_get_vocab model) prompt
              ((prompt.length : Int) + 128) (promptCount L model prompt)]
              ++ [Event.memory_clear ctx] ++ [Event.batch_init 512]) with
          | (false, _, t4) => ([], { s with trace := t4 })
          | (true, batch, t4) =>
            ((genLoop L (L.model_get_vocab model) ctx smpl (promptCount L model prompt) maxTokens
                maxTokens.toNat 0 [] batch t4).1,
             { s with trace := (genLoop L (L.model_get_vocab model) ctx smpl
                (promptCount L model prompt) maxTokens maxTokens.toNat 0 [] batch t4).2
                ++ [Event.batch_free] }) := by
      simp only [generateCompletion, hm, hc, hs, hn', if_false, promptCount, promptTokens]
    rw [hgc]
    generalize promptLoop L ctx (promptCount L model prompt) (promptTokens L model prompt) 0 []
      (s.trace ++ [Event.tokenize (L.model_get_vocab model) prompt
        ((prompt.length : Int) + 128) (promptCount L model prompt)]
        ++ [Event.memory_clear ctx] ++ [Event.batch_init 512]) = pl at htr hok hfail ⊢
    obtain ⟨ok, b, t4⟩ := pl
    cases ok with
    | false =>
      left
      obtain ⟨d, hd, hne⟩ := hfail rfl
      refine ⟨hn0, ds, d, ?_, hdl, hd, hne⟩
      simp only [Bool.false_eq_true, if_false] at htr
      simp [htr, preludeEvents]
    | true =>
      right
      obtain ⟨hz, hb, hfl, hcnt, hle, h512⟩ := hok rfl
      simp only [if_true] at htr hb
      obtain ⟨its, stop, heq, heog, hidl, hilen, hcase⟩ := genLoop_spec L (L.model_get_vocab model)
        ctx smpl (promptCount L model prompt) maxTokens maxTokens.toNat 0 [] b t4 (by simp)
      simp only [sub_zero] at hilen hcase
      refine ⟨hn0, ds, its, stop, ?_, ⟨hz, ?_, ?_, hle, h512⟩, heog, hidl, hilen, hcase⟩
      · simp only [heq]
        simp [htr, preludeEvents]
      · simpa using hfl
      · simpa using hcnt

/-! ## Observations of the emitted events -/

theorem callEvents_of_trace (s s' : State) (evs : List Event)
    (h : s'.trace = s.trace ++ evs) : callEvents s s' = evs := by
  simp [callEvents, h]

theorem callEvents_self (s : State) : callEvents s s = [] := by
  simp [callEvents]

theorem promptDecodes_append (a b : List Event) :
    promptDecodes (a ++ b) = promptDecodes a ++ promptDecodes b := by
  simp [promptDecodes]

theorem refeedDecodes_append (a b : List Event) :
    refeedDecodes (a ++ b) = refeedDecodes a ++ refeedDecodes b := by
  simp [refeedDecodes]

theorem sampledTokens_append (a b : List Event) :
    sampledTokens (a ++ b) = sampledTokens a ++ sampledTokens b := by
  simp [sampledTokens]

theorem batchFrees_append (a b : List Event) :
    batchFrees (a ++ b) = batchFrees a + batchFrees b := by
  simp [batchFrees]

theorem promptDecodes_decodeEvents (ctx : Nat) (ds : List (llama_batch × Int)) :
    promptDecodes (decodeEvents DecodeSite.prompt ctx ds) = ds := by
  induction ds with
  | nil => rfl
  | cons d ds ih =>
    simp only [promptDecodes, decodeEvents, List.map_cons, List.filterMap_cons] at ih ⊢
    rw [ih]

theorem refeedDecodes_decodeEvents (ctx : Nat) (ds : List (llama_batch × Int)) :
    refeedDecodes (decodeEvents DecodeSite.prompt ctx ds) = [] := by
  induction ds with
  | nil => rfl
  | cons d ds ih =>
    simp only [refeedDecodes, decodeEvents, List.map_cons, List.filterMap_cons] at ih ⊢
    rw [ih]

theorem sampledTokens_decodeEvents (ctx : Nat) (ds : List (llama_batch × Int)) :
    sampledTokens (decodeEvents DecodeSite.prompt ctx ds) = [] := by
  induction ds with
  | nil => rfl
  | cons d ds ih =>
    simp only [sampledTokens, decodeEvents, List.map_cons, List.filterMap_cons] at ih ⊢
    rw [ih]

theorem batchFrees_decodeEvents (ctx : Nat) (ds : List (llama_batch × Int)) :
    batchFrees (decodeEvents DecodeSite.prompt ctx ds) = 0 := by
  induction ds with
  | nil => rfl
  | cons d ds ih =>
    simp only [batchFrees, decodeEvents, List.map_cons] at ih ⊢
    rw [List.count_cons, ih]
    simp

theorem promptDecodes_refeedEvents (ctx smpl : Nat) (n : Int) (its : List (Int × Int)) :
    ∀ k, promptDecodes (refeedEvents ctx smpl n k its) = [] := by
  induction its with
  | nil => intro k; rfl
  | cons it its ih =>
    intro k
    obtain ⟨t, r⟩ := it
    rw [refeedEvents, promptDecodes_append, ih]
    rfl

theorem sampledTokens_refeedEvents (ctx smpl : Nat) (n : Int) (its : List (Int × Int)) :
    ∀ k, sampledTokens (refeedEvents ctx smpl n k its) = its.map Prod.fst := by
  induction its with
  | nil => intro k; rfl
  | cons it its ih =>
    intro k
    obtain ⟨t, r⟩ := it
    rw [refeedEvents, sampledTokens_append, ih]
    rfl

theorem batchFrees_refeedEvents (ctx smpl : Nat) (n : Int) (its : List (Int × Int)) :
    ∀ k, batchFrees (refeedEvents ctx smpl n k its) = 0 := by
  induction its with
  | nil => intro k; rfl
  | cons it its ih =>
    intro k
    obtain ⟨t, r⟩ := it
    rw [refeedEvents, batchFrees_append, ih]
    rfl

theorem length_refeedDecodes_refeedEvents (ctx smpl : Nat) (n : Int) (its : List (Int × Int)) :
    ∀ k, (refeedDecodes (refeedEvents ctx smpl n k its)).length = its.length := by
  induction its with
  | nil => intro k; rfl
  | cons it its ih =>
    intro k
    obtain ⟨t, r⟩ := it
    rw [refeedEvents, refeedDecodes_append, List.length_append, ih]
    simp [refeedDecodes, Nat.add_comm]

theorem map_snd_refeedDecodes_refeedEvents (ctx smpl : Nat) (n : Int) (its : List (Int × Int)) :
    ∀ k, (refeedDecodes (refeedEvents ctx smpl n k its)).map Prod.snd = its.map Prod.snd := by
  induction its with
  | nil => intro k; rfl
  | cons it its ih =>
    intro k
    obtain ⟨t, r⟩ := it
    rw [refeedEvents, refeedDecodes_append, List.map_append, ih]
    rfl

theorem getElem?_refeedDecodes_refeedEvents (ctx smpl : Nat) (n : Int) (its : List (Int × Int)) :
    ∀ (k : Int) (j : Nat), (refeedDecodes (refeedEvents ctx smpl n k its))[j]?
      = its[j]?.map (fun it => ([(⟨it.1, n + k + j, [0], true⟩ : BatchEntry)], it.2)) := by
  induction its with
  | nil => intro k j; rfl
  | cons it its ih =>
    intro k j
    obtain ⟨t, r⟩ := it
    rw [refeedEvents, refeedDecodes_append]
    have h : refeedDecodes [Event.sampler_sample smpl ctx (-1) t, Event.sampler_accept smpl t,
        Event.decode DecodeSite.refeed ctx [⟨t, n + k, [0], true⟩] r]
        = [([⟨t, n + k, [0], true⟩], r)] := rfl
    rw [h]
    cases j with
    | zero => simp
    | succ j =>
      simp only [List.singleton_append, List.getElem?_cons_succ, ih]
      congr 1
      funext it
      have : n + (k + 1) + (j : Int) = n + k + ((j + 1 : Nat) : Int) := by push_cast; ring
      rw [this]

theorem observe_stopEvents (ctx smpl : Nat) (stop : Option Int) :
    promptDecodes (stopEvents ctx smpl stop) = [] ∧ refeedDecodes (stopEvents ctx smpl stop) = [] ∧
    sampledTokens (stopEvents ctx smpl stop) = stop.toList ∧
    batchFrees (stopEvents ctx smpl stop) = 0 := by
  cases stop <;> exact ⟨rfl, rfl, rfl, rfl⟩

theorem observe_preludeEvents (L : Llama) (model ctx : Nat) (prompt : CppString) :
    promptDecodes (preludeEvents L model ctx prompt) = [] ∧
    refeedDecodes (preludeEvents L model ctx prompt) = [] ∧
    sampledTokens (preludeEvents L model ctx prompt) = [] ∧
    batchFrees (preludeEvents L model ctx prompt) = 0 :=
  ⟨rfl, rfl, rfl, rfl⟩

theorem generateCompletion_unloaded (L : Llama) (s : State) (prompt : CppString)
    (maxTokens : Int) (h : s.g_model = none ∨ s.g_context = none ∨ s.g_sampler = none) :
    generateCompletion L s prompt maxTokens = ([], s) := by
  unfold generateCompletion
  rcases h with h | h | h
  · simp [h]
  · cases hm : s.g_model <;> simp [h]
  · cases hm : s.g_model <;> cases hc : s.g_context <;> simp [h]

theorem observe_failure_events (L : Llama) (model ctx : Nat) (prompt : CppString)
    (ds : List (llama_batch × Int)) :
    promptDecodes (preludeEvents L model ctx prompt ++ decodeEvents DecodeSite.prompt ctx ds
      ++ [Event.batch_free]) = ds ∧
    refeedDecodes (preludeEvents L model ctx prompt ++ decodeEvents DecodeSite.prompt ctx ds
      ++ [Event.batch_free]) = [] ∧
    sampledTokens (preludeEvents L model ctx prompt ++ decodeEvents DecodeSite.prompt ctx ds
      ++ [Event.batch_free]) = [] ∧
    batchFrees (preludeEvents L model ctx prompt ++ decodeEvents DecodeSite.prompt ctx ds
      ++ [Event.batch_free]) = 1 := by
  obtain ⟨p1, p2, p3, p4⟩ := observe_preludeEvents L model ctx prompt
  refine ⟨?_, ?_, ?_, ?_⟩
  · rw [promptDecodes_append, promptDecodes_append, p1, promptDecodes_decodeEvents]
    simp [promptDecodes]
  · rw [refeedDecodes_append, refeedDecodes_append, p2, refeedDecodes_decodeEvents]
    simp [refeedDecodes]
  · rw [sampledTokens_append, sampledTokens_append, p3, sampledTokens_decodeEvents]
    simp [sampledTokens]
  · rw [batchFrees_append, batchFrees_append, p4, batchFrees_decodeEvents]
    simp [batchFrees]

theorem observe_success_events (L : Llama) (model ctx smpl : Nat) (prompt : CppString)
    (n : Int) (ds : List (llama_batch × Int)) (its : List (Int × Int)) (stop : Option Int) :
    promptDecodes (preludeEvents L model ctx prompt ++ decodeEvents DecodeSite.prompt ctx ds
      ++ refeedEvents ctx smpl n 0 its ++ stopEvents ctx smpl stop ++ [Event.batch_free]) = ds ∧
    refeedDecodes (preludeEvents L model ctx prompt ++ decodeEvents DecodeSite.prompt ctx ds
      ++ refeedEvents ctx smpl n 0 its ++ stopEvents ctx smpl stop ++ [Event.batch_free])
      = refeedDecodes (refeedEvents ctx smpl n 0 its) ∧
    sampledTokens (preludeEvents L model ctx prompt ++ decodeEvents DecodeSite.prompt ctx ds
      ++ refeedEvents ctx smpl n 0 its ++ stopEvents ctx smpl stop ++ [Event.batch_free])
      = its.map Prod.fst ++ stop.toList ∧
    batchFrees (preludeEvents L model ctx prompt ++ decodeEvents DecodeSite.prompt ctx ds
      ++ refeedEvents ctx smpl n 0 its ++ stopEvents ctx smpl stop ++ [Event.batch_free]) = 1 := by
  obtain ⟨p1, p2, p3, p4⟩ := observe_preludeEvents L model ctx prompt
  obtain ⟨q1, q2, q3, q4⟩ := observe_stopEvents ctx smpl stop
  refine ⟨?_, ?_, ?_, ?_⟩
  · rw [promptDecodes_append, promptDecodes_append, promptDecodes_append, promptDecodes_append,
      p1, q1, promptDecodes_decodeEvents, promptDecodes_refeedEvents]
    simp [promptDecodes]
  · rw [refeedDecodes_append, refeedDecodes_append, refeedDecodes_append, refeedDecodes_append,
      p2, q2, refeedDecodes_decodeEvents]
    simp [refeedDecodes]
  · rw [sampledTokens_append, sampledTokens_append, sampledTokens_append, sampledTokens_append,
      p3, q3, sampledTokens_decodeEvents, sampledTokens_refeedEvents]
    simp [sampledTokens]
  · rw [batchFrees_append, batchFrees_append, batchFrees_append, batchFrees_append,
      p4, q4, batchFrees_decodeEvents, batchFrees_refeedEvents]
    simp [batchFrees]

theorem getElem?_promptEntries (n : Int) (rest : List Int) :
    ∀ (i : Int) (j : Nat), (promptEntries n i rest)[j]?
      = rest[j]?.map (fun t => (⟨t, i + j, [0], decide (i + (j : Int) = n - 1)⟩ : BatchEntry)) := by
  induction rest with
  | nil => intro i j; rfl
  | cons t rest ih =>
    intro i j
    cases j with
    | zero => simp [promptEntries]
    | succ j =>
      simp only [promptEntries, List.getElem?_cons_succ, ih]
      have h : i + 1 + (j : Int) = i + ((j + 1 : Nat) : Int) := by push_cast; ring
      simp only [h]

theorem generateEvents_unloaded (L : Llama) (s : State) (prompt : CppString)
    (maxTokens : Int) (h : s.g_model = none ∨ s.g_context = none ∨ s.g_sampler = none) :
    generateEvents L s prompt maxTokens = [] := by
  rw [generateEvents, generateCompletion_unloaded L s prompt maxTokens h]
  exact callEvents_self s

/-- A state either lacks one of the three handles or holds all of them. -/
theorem loaded_or_not (s : State) :
    (s.g_model = none ∨ s.g_context = none ∨ s.g_sampler = none) ∨
    ∃ model ctx smpl, s.g_model = some model ∧ s.g_context = some ctx ∧ s.g_sampler = some smpl := by
  obtain ⟨m, c, x, tr⟩ := s
  cases m <;> cases c <;> cases x <;> simp

/-- The observations on a `generateCompletion` call of a loaded session, by
outcome: tokenization failure, prompt-decode failure, or generation. -/
theorem generate_observations (L : Llama) (s : State) (prompt : CppString)
    (maxTokens : Int) (model ctx smpl : Nat)
    (hm : s.g_model = some model) (hc : s.g_context = some ctx) (hs : s.g_sampler = some smpl) :
    (promptCount L model prompt < 0 ∧
      (generateCompletion L s prompt maxTokens).1 = [] ∧
      generateEvents L s prompt maxTokens = [Event.tokenize (L.model_get_vocab model) prompt
            ((prompt.length : Int) + 128) (promptCount L model prompt)]) ∨
    (0 ≤ promptCount L model prompt ∧ ∃ (ds : List (llama_batch × Int)) (d : llama_batch × Int),
      (generateCompletion L s prompt maxTokens).1 = [] ∧
      generateEvents L s prompt maxTokens = preludeEvents L model ctx prompt
            ++ decodeEvents DecodeSite.prompt ctx ds ++ [Event.batch_free] ∧
      (∀ x ∈ ds.dropLast, x.2 = 0) ∧ ds.getLast? = some d ∧ d.2 ≠ 0 ∧
        ∃ tr0, d.2 = L.decode tr0 ctx d.1) ∨
    (0 ≤ promptCount L model prompt ∧
      ∃ (ds : List (llama_batch × Int)) (its : List (Int × Int)) (stop : Option Int),
      (generateCompletion L s prompt maxTokens).1
        = (its.map Prod.fst).flatMap (fragment L (L.model_get_vocab model)) ∧
      generateEvents L s prompt maxTokens = preludeEvents L model ctx prompt
            ++ decodeEvents DecodeSite.prompt ctx ds
            ++ refeedEvents ctx smpl (promptCount L model prompt) 0 its
            ++ stopEvents ctx smpl stop ++ [Event.batch_free] ∧
      ((∀ d ∈ ds, d.2 = 0) ∧
        (ds.map Prod.fst).flatten
          = promptEntries (promptCount L model prompt) 0 (promptTokens L model prompt) ∧
        ds.length = ((promptTokens L model prompt).length + 511) / 512 ∧
        (∀ d ∈ ds, d.1.length ≤ 512) ∧
        (∀ d ∈ ds.dropLast, d.1.length = 512)) ∧
      (∀ it ∈ its, L.vocab_is_eog (L.model_get_vocab model) it.1 = false) ∧
      (∀ it ∈ its.dropLast, it.2 = 0) ∧
      its.length ≤ maxTokens.toNat ∧
      ((∃ e, stop = some e ∧ L.vocab_is_eog (L.model_get_vocab model) e = true ∧
          (∀ it ∈ its, it.2 = 0) ∧ its.length < maxTokens.toNat) ∨
       (stop = none ∧ ∃ it, its.getLast? = some it ∧ it.2 ≠ 0) ∨
       (stop = none ∧ (∀ it ∈ its, it.2 = 0) ∧ its.length = maxTokens.toNat))) := by
  rcases generateCompletion_anatomy L s prompt maxTokens model ctx smpl hm hc hs with
    ⟨hn, heq⟩ | ⟨hn, ds, d, heq, h1, h2, h3⟩ | ⟨hn, ds, its, stop, heq, h1, h2, h3, h4, h5⟩
  · refine Or.inl ⟨hn, by rw [heq], ?_⟩
    rw [generateEvents, heq]
    exact callEvents_of_trace _ _ _ rfl
  · refine Or.inr (Or.inl ⟨hn, ds, d, by rw [heq], ?_, h1, h2, h3⟩)
    rw [generateEvents, heq]
    exact callEvents_of_trace _ _ _ rfl
  · refine Or.inr (Or.inr ⟨hn, ds, its, stop, by rw [heq], ?_, h1, h2, h3, h4, h5⟩)
    rw [generateEvents, heq]
    exact callEvents_of_trace _ _ _ rfl

/-! ## The precondition check, `loadModel` failures and `unload` -/

/-- C1: when at least one of `g_model`, `g_context`, `g_sampler` is null,
`generateCompletion` returns the empty string, leaves the three handles as they
were and makes no library call at all (no tokenize, cache clear, batch, decode
or sample call). -/
theorem generateCompletion_requires_session (L : Llama) (s : State) (prompt : CppString)
    (maxTokens : Int) (h : s.g_model = none ∨ s.g_context = none ∨ s.g_sampler = none) :
    (generateCompletion L s prompt maxTokens).1 = [] ∧
    (generateCompletion L s prompt maxTokens).2.g_model = s.g_model ∧
    (generateCompletion L s prompt maxTokens).2.g_context = s.g_context ∧
    (generateCompletion L s prompt maxTokens).2.g_sampler = s.g_sampler ∧
    callEvents s (generateCompletion L s prompt maxTokens).2 = [] := by
  rw [generateCompletion_unloaded L s prompt maxTokens h]
  exact ⟨rfl, rfl, rfl, rfl, callEvents_self s⟩

theorem generateCompletion_requires_session_witness :
    ((⟨some 1, none, some 3, []⟩ : State).g_model = none ∨
      (⟨some 1, none, some 3, []⟩ : State).g_context = none ∨
      (⟨some 1, none, some 3, []⟩ : State).g_sampler = none) ∧
    ((generateCompletion (scripted [104]) ⟨some 1, none, some 3, []⟩ ['H', 'i'] 5).1 = [] ∧
    (generateCompletion (scripted [104]) ⟨some 1, none, some 3, []⟩ ['H', 'i'] 5).2.g_model
      = some 1 ∧
    (generateCompletion (scripted [104]) ⟨some 1, none, some 3, []⟩ ['H', 'i'] 5).2.g_context
      = none ∧
    (generateCompletion (scripted [104]) ⟨some 1, none, some 3, []⟩ ['H', 'i'] 5).2.g_sampler
      = some 3 ∧
    callEvents ⟨some 1, none, some 3, []⟩
      (generateCompletion (scripted [104]) ⟨some 1, none, some 3, []⟩ ['H', 'i'] 5).2 = []) :=
  ⟨by decide, generateCompletion_requires_session (scripted [104]) ⟨some 1, none, some 3, []⟩
    ['H', 'i'] 5 (by decide)⟩

/-- C2: whenever `loadModel` returns false, either the model load failed, or
the context creation failed, in which case the model loaded by this call was
freed and `g_context` holds the null result; in both cases `g_model` is null
afterwards and `g_sampler` is as before, and a following `generateCompletion`
returns the empty string (and does nothing) for every prompt and `maxTokens`. -/
theorem loadModel_false_not_eligible (L : Llama) (s : State) (model_path : CppString)
    (nCtx nThreads nGpuLayers : Int)
    (h : (loadModel L s model_path nCtx nThreads nGpuLayers).1 = false) :
    ((callEvents s (loadModel L s model_path nCtx nThreads nGpuLayers).2
        = [Event.model_load_from_file model_path nGpuLayers none] ∧
      (loadModel L s model_path nCtx nThreads nGpuLayers).2.g_context = s.g_context) ∨
      ∃ model, callEvents s (loadModel L s model_path nCtx nThreads nGpuLayers).2
        = [Event.model_load_from_file model_path nGpuLayers (some model),
           Event.init_from_model model nCtx 512 nThreads none,
           Event.model_free model] ∧
        (loadModel L s model_path nCtx nThreads nGpuLayers).2.g_context = none) ∧
    (loadModel L s model_path nCtx nThreads nGpuLayers).2.g_model = none ∧
    (loadModel L s model_path nCtx nThreads nGpuLayers).2.g_sampler = s.g_sampler ∧
    ∀ (prompt : CppString) (maxTokens : Int),
      generateCompletion L (loadModel L s model_path nCtx nThreads nGpuLayers).2 prompt maxTokens
        = ([], (loadModel L s model_path nCtx nThreads nGpuLayers).2) := by
  have key : ((callEvents s (loadModel L s model_path nCtx nThreads nGpuLayers).2
        = [Event.model_load_from_file model_path nGpuLayers none] ∧
      (loadModel L s model_path nCtx nThreads nGpuLayers).2.g_context = s.g_context) ∨
      ∃ model, callEvents s (loadModel L s model_path nCtx nThreads nGpuLayers).2
        = [Event.model_load_from_file model_path nGpuLayers (some model),
           Event.init_from_model model nCtx 512 nThreads none,
           Event.model_free model] ∧
        (loadModel L s model_path nCtx nThreads nGpuLayers).2.g_context = none) ∧
      (loadModel L s model_path nCtx nThreads nGpuLayers).2.g_model = none ∧
      (loadModel L s model_path nCtx nThreads nGpuLayers).2.g_sampler = s.g_sampler := by
    unfold loadModel at h ⊢
    cases hm : L.model_load_from_file s.trace model_path nGpuLayers with
    | none =>
      refine ⟨Or.inl ⟨?_, ?_⟩, ?_, ?_⟩
      · simp [callEvents]
      · simp
      · simp
      · simp
    | some model =>
      cases hc : L.init_from_model
          (s.trace ++ [Event.model_load_from_file model_path nGpuLayers (some model)])
          model nCtx 512 nThreads with
      | none =>
        refine ⟨Or.inr ⟨model, ?_, ?_⟩, ?_, ?_⟩
        · simp [callEvents, hc]
        · simp [hc]
        · simp [hc]
        · simp [hc]
      | some ctx => simp [hm, hc] at h
  refine ⟨key.1, key.2.1, key.2.2, ?_⟩
  intro prompt maxTokens
  exact generateCompletion_unloaded L _ prompt maxTokens (Or.inl key.2.1)

set_option maxRecDepth 100000 in
theorem loadModel_false_not_eligible_witness :
    (loadModel (scripted [104]) loadedState goodPath 0 1 0).1 = false ∧
    (loadedState.g_context = some 2 ∧
      (loadModel (scripted [104]) loadedState goodPath 0 1 0).2
        = ⟨none, none, some 3, loadedState.trace ++
            [Event.model_load_from_file goodPath 0 (some 8),
             Event.init_from_model 8 0 512 1 none, Event.model_free 8]⟩) ∧
    (((callEvents loadedState (loadModel (scripted [104]) loadedState goodPath 0 1 0).2
        = [Event.model_load_from_file goodPath 0 none] ∧
      (loadModel (scripted [104]) loadedState goodPath 0 1 0).2.g_context
        = loadedState.g_context) ∨
      ∃ model, callEvents loadedState (loadModel (scripted [104]) loadedState goodPath 0 1 0).2
        = [Event.model_load_from_file goodPath 0 (some model),
           Event.init_from_model model 0 512 1 none,
           Event.model_free model] ∧
        (loadModel (scripted [104]) loadedState goodPath 0 1 0).2.g_context = none) ∧
    (loadModel (scripted [104]) loadedState goodPath 0 1 0).2.g_model = none ∧
    (loadModel (scripted [104]) loadedState goodPath 0 1 0).2.g_sampler
      = loadedState.g_sampler ∧
    ∀ (prompt : CppString) (maxTokens : Int),
      generateCompletion (scripted [104]) (loadModel (scripted [104]) loadedState goodPath 0 1 0).2
          prompt maxTokens
        = ([], (loadModel (scripted [104]) loadedState goodPath 0 1 0).2)) :=
  ⟨by decide, by decide,
    loadModel_false_not_eligible (scripted [104]) loadedState goodPath 0 1 0 (by decide)⟩

/-- C3 fails on a loaded session: the scripted library refuses the empty path,
`loadModel` returns false, and `g_model`, which held model 1, is null afterwards. -/
theorem loadModel_weights_failure_clears_model :
    loadedState.g_model = some 1 ∧
    (scripted []).model_load_from_file loadedState.trace [] 0 = none ∧
    (loadModel (scripted []) loadedState [] 128 1 0).1 = false ∧
    (loadModel (scripted []) loadedState [] 128 1 0).2.g_model = none ∧
    (loadModel (scripted []) loadedState [] 128 1 0).2.g_model ≠ loadedState.g_model := by
  decide

/-- C3, amended: when loading the weights fails, `loadModel` returns false after
that single library call, `g_model` is null afterwards, and `g_context` and
`g_sampler` are as before; so the three handles are unchanged when no model was
held before the call. -/
theorem loadModel_weights_failure (L : Llama) (s : State) (model_path : CppString)
    (nCtx nThreads nGpuLayers : Int)
    (h : L.model_load_from_file s.trace model_path nGpuLayers = none) :
    (loadModel L s model_path nCtx nThreads nGpuLayers).1 = false ∧
    callEvents s (loadModel L s model_path nCtx nThreads nGpuLayers).2
      = [Event.model_load_from_file model_path nGpuLayers none] ∧
    (loadModel L s model_path nCtx nThreads nGpuLayers).2.g_model = none ∧
    (loadModel L s model_path nCtx nThreads nGpuLayers).2.g_context = s.g_context ∧
    (loadModel L s model_path nCtx nThreads nGpuLayers).2.g_sampler = s.g_sampler ∧
    (s.g_model = none →
      (loadModel L s model_path nCtx nThreads nGpuLayers).2.g_model = s.g_model) := by
  have hl : loadModel L s model_path nCtx nThreads nGpuLayers
      = (false, ⟨none, s.g_context, s.g_sampler,
          s.trace ++ [Event.model_load_from_file model_path nGpuLayers none]⟩) := by
    unfold loadModel
    simp only [h]
  rw [hl]
  exact ⟨rfl, callEvents_of_trace _ _ _ rfl, rfl, rfl, rfl, fun h0 => h0.symm⟩

theorem loadModel_weights_failure_witness :
    (scripted []).model_load_from_file loadedState.trace [] 0 = none ∧
    ((loadModel (scripted []) loadedState [] 128 1 0).1 = false ∧
    callEvents loadedState (loadModel (scripted []) loadedState [] 128 1 0).2
      = [Event.model_load_from_file [] 0 none] ∧
    (loadModel (scripted []) loadedState [] 128 1 0).2.g_model = none ∧
    (loadModel (scripted []) loadedState [] 128 1 0).2.g_context = loadedState.g_context ∧
    (loadModel (scripted []) loadedState [] 128 1 0).2.g_sampler = loadedState.g_sampler ∧
    (loadedState.g_model = none →
      (loadModel (scripted []) loadedState [] 128 1 0).2.g_model = loadedState.g_model)) :=
  ⟨by decide, loadModel_weights_failure (scripted []) loadedState [] 128 1 0 (by decide)⟩

/-- C10: from every state `unload` frees each held resource exactly once, the
sampler chain first, then the context, then the model, and leaves the three
handles null; a following `generateCompletion` returns the empty string and
does nothing, as on the initial state; a second `unload` makes no call and
leaves the state as it is. -/
theorem unload_teardown (L : Llama) (s : State) :
    (unload s).trace = s.trace ++ unloadEvents s ∧
    (unload s).g_model = none ∧ (unload s).g_context = none ∧ (unload s).g_sampler = none ∧
    (∀ (prompt : CppString) (maxTokens : Int),
      generateCompletion L (unload s) prompt maxTokens = ([], unload s) ∧
      (generateCompletion L State.init prompt maxTokens).1 = []) ∧
    unload (unload s) = unload s ∧ callEvents (unload s) (unload (unload s)) = [] := by
  have hh : (unload s).trace = s.trace ++ unloadEvents s ∧
      (unload s).g_model = none ∧ (unload s).g_context = none ∧ (unload s).g_sampler = none := by
    obtain ⟨m, c, x, tr⟩ := s
    cases m <;> cases c <;> cases x <;> simp [unload, unloadEvents]
  have h2 : unload (unload s) = unload s := by
    obtain ⟨m, c, x, tr⟩ := s
    cases m <;> cases c <;> cases x <;> simp [unload]
  refine ⟨hh.1, hh.2.1, hh.2.2.1, hh.2.2.2, ?_, h2, ?_⟩
  · intro prompt maxTokens
    exact ⟨generateCompletion_unloaded L _ prompt maxTokens (Or.inl hh.2.1),
      by rw [generateCompletion_unloaded L State.init prompt maxTokens (Or.inl rfl)]⟩
  · rw [h2]; exact callEvents_self _

/-! ## The prompt phase and the generation loop -/

theorem promptCount_eq_length (L : Llama) (model : Nat) (prompt : CppString)
    (hn : 0 ≤ promptCount L model prompt) :
    ((promptTokens L model prompt).length : Int) = promptCount L model prompt := by
  rw [promptTokens, length_vector_resize]; omega

theorem promptTokens_eq_nil (L : Llama) (model : Nat) (prompt : CppString)
    (hn : promptCount L model prompt < 0) : promptTokens L model prompt = [] := by
  apply List.eq_nil_of_length_eq_zero
  rw [promptTokens, length_vector_resize]; omega

/-- C4: on a loaded session, when every prompt decode of the call succeeds, the
prompt loop submits `ceil(n/512)` batches for the `n` prompt tokens, each of at
most 512 entries and all but the last of exactly 512; their concatenation has
at index `i` the entry `(tokens[i], i, {0})` for `i < n` and nothing beyond, and
the emit-logits flag of that entry is set exactly when `i = n - 1`. -/
theorem prompt_batch_splitting (L : Llama) (s : State) (prompt : CppString)
    (maxTokens : Int) (model ctx smpl : Nat)
    (hm : s.g_model = some model) (hc : s.g_context = some ctx) (hs : s.g_sampler = some smpl)
    (hok : ∀ d ∈ promptDecodes (generateEvents L s prompt maxTokens), d.2 = 0) :
    ((promptDecodes (generateEvents L s prompt maxTokens)).map Prod.fst).length
      = ((promptTokens L model prompt).length + 511) / 512 ∧
    (∀ b ∈ (promptDecodes (generateEvents L s prompt maxTokens)).map Prod.fst, b.length ≤ 512) ∧
    (∀ b ∈ ((promptDecodes (generateEvents L s prompt maxTokens)).map Prod.fst).dropLast,
      b.length = 512) ∧
    (∀ i : Nat, (((promptDecodes (generateEvents L s prompt maxTokens)).map Prod.fst).flatten)[i]?
      = (promptTokens L model prompt)[i]?.map (fun t =>
          (⟨t, (i : Int), [0], decide (i + 1 = (promptTokens L model prompt).length)⟩
            : BatchEntry))) := by
  rcases generate_observations L s prompt maxTokens model ctx smpl hm hc hs with
    ⟨hn, _, hev⟩ | ⟨hn, ds, d, _, hev, _, hlast, hne⟩ |
    ⟨hn, ds, its, stop, _, hev, ⟨_, hfl, hcnt, hle, h512⟩, _⟩
  · rw [hev, promptTokens_eq_nil L model prompt hn]
    simp [promptDecodes]
  · exfalso
    rw [hev, (observe_failure_events L model ctx prompt ds).1] at hok
    exact hne.1 (hok d (List.mem_of_getLast?_eq_some hlast))
  · rw [hev, (observe_success_events L model ctx smpl prompt _ ds its stop).1]
    refine ⟨by simpa using hcnt, ?_, ?_, ?_⟩
    · intro b hb
      obtain ⟨d, hd, rfl⟩ := List.mem_map.mp hb
      exact hle d hd
    · intro b hb
      rw [← List.map_dropLast] at hb
      obtain ⟨d, hd, rfl⟩ := List.mem_map.mp hb
      exact h512 d hd
    · intro i
      rw [hfl, getElem?_promptEntries]
      have hlen := promptCount_eq_length L model prompt hn
      have h1 : (0 : Int) + (i : Int) = i := by ring
      have h2 : decide ((0 : Int) + (i : Int) = promptCount L model prompt - 1)
          = decide (i + 1 = (promptTokens L model prompt).length) := by
        rw [decide_eq_decide]; omega
      rw [h2, h1]

/-- With a decoder that always succeeds, every prompt decode succeeds. -/
theorem promptDecodes_succeed (L : Llama) (hL : ∀ tr ctx b, L.decode tr ctx b = 0)
    (s : State) (prompt : CppString) (maxTokens : Int) :
    ∀ d ∈ promptDecodes (generateEvents L s prompt maxTokens), d.2 = 0 := by
  intro d0 hd0
  rcases loaded_or_not s with hu | ⟨model, ctx, smpl, hm, hc, hs⟩
  · rw [generateEvents_unloaded L s prompt maxTokens hu] at hd0
    simp [promptDecodes] at hd0
  · rcases generate_observations L s prompt maxTokens model ctx smpl hm hc hs with
      ⟨_, _, hev⟩ | ⟨_, ds, d, _, hev, _, _, hne, tr0, hd⟩ |
      ⟨_, ds, its, stop, _, hev, ⟨hz, _⟩, _⟩
    · rw [hev] at hd0
      simp [promptDecodes] at hd0
    · exact absurd (hd.trans (hL tr0 ctx d.1)) hne
    · rw [hev, (observe_success_events L model ctx smpl prompt _ ds its stop).1] at hd0
      exact hz d0 hd0

set_option maxRecDepth 100000 in
theorem prompt_batch_splitting_witness :
    (loadedState.g_model = some 1 ∧ loadedState.g_context = some 2 ∧
      loadedState.g_sampler = some 3 ∧
      (promptTokens (obliging []) 1 longPrompt).length = 513 ∧
      ∀ d ∈ promptDecodes (generateEvents (obliging []) loadedState longPrompt 2), d.2 = 0) ∧
    (((promptDecodes (generateEvents (obliging []) loadedState longPrompt 2)).map
        Prod.fst).length
      = ((promptTokens (obliging []) 1 longPrompt).length + 511) / 512 ∧
    (∀ b ∈ (promptDecodes (generateEvents (obliging []) loadedState longPrompt 2)).map
        Prod.fst, b.length ≤ 512) ∧
    (∀ b ∈ ((promptDecodes (generateEvents (obliging []) loadedState longPrompt 2)).map
        Prod.fst).dropLast, b.length = 512) ∧
    (∀ i : Nat,
      (((promptDecodes (generateEvents (obliging []) loadedState longPrompt 2)).map
        Prod.fst).flatten)[i]?
      = (promptTokens (obliging []) 1 longPrompt)[i]?.map (fun t =>
          (⟨t, (i : Int), [0],
            decide (i + 1 = (promptTokens (obliging []) 1 longPrompt).length)⟩
            : BatchEntry)))) :=
  ⟨⟨by decide, by decide, by decide,
      by rw [promptTokens, length_vector_resize]; decide,
      promptDecodes_succeed (obliging []) (fun _ _ _ => rfl) loadedState longPrompt 2⟩,
    prompt_batch_splitting (obliging []) loadedState longPrompt 2 1 2 3
      (by decide) (by decide) (by decide)
      (promptDecodes_succeed (obliging []) (fun _ _ _ => rfl) loadedState longPrompt 2)⟩

/-- C5: on a loaded session whose tokenization and prompt decodes succeeded,
the returned string is the concatenation, in sampling order, of the text
fragments of the tokens taken, in one of three ways: an end-of-generation token
was sampled, the tokens taken are the ones sampled before it (none when it came
first) and every re-feed decode succeeded; or a re-feed decode failed, the
tokens taken are all the sampled ones up to and including the one whose re-feed
failed, and the earlier decodes succeeded; or neither happened and exactly
`maxTokens` tokens were sampled and taken. -/
theorem generation_result (L : Llama) (s : State) (prompt : CppString)
    (maxTokens : Int) (model ctx smpl : Nat)
    (hm : s.g_model = some model) (hc : s.g_context = some ctx) (hs : s.g_sampler = some smpl)
    (hn : 0 ≤ promptCount L model prompt)
    (hok : ∀ d ∈ promptDecodes (generateEvents L s prompt maxTokens), d.2 = 0) :
    (∃ (taken : List Int) (e : Int),
      sampledTokens (generateEvents L s prompt maxTokens) = taken ++ [e] ∧
      L.vocab_is_eog (L.model_get_vocab model) e = true ∧
      (∀ t ∈ taken, L.vocab_is_eog (L.model_get_vocab model) t = false) ∧
      (refeedDecodes (generateEvents L s prompt maxTokens)).map Prod.snd
        = List.replicate taken.length 0 ∧
      taken.length < maxTokens.toNat ∧
      (generateCompletion L s prompt maxTokens).1
        = taken.flatMap (fragment L (L.model_get_vocab model))) ∨
    (∃ r : Int, r ≠ 0 ∧
      (∀ t ∈ sampledTokens (generateEvents L s prompt maxTokens),
        L.vocab_is_eog (L.model_get_vocab model) t = false) ∧
      (refeedDecodes (generateEvents L s prompt maxTokens)).map Prod.snd
        = List.replicate ((sampledTokens (generateEvents L s prompt maxTokens)).length - 1) 0
            ++ [r] ∧
      0 < (sampledTokens (generateEvents L s prompt maxTokens)).length ∧
      (sampledTokens (generateEvents L s prompt maxTokens)).length ≤ maxTokens.toNat ∧
      (generateCompletion L s prompt maxTokens).1
        = (sampledTokens (generateEvents L s prompt maxTokens)).flatMap
            (fragment L (L.model_get_vocab model))) ∨
    ((∀ t ∈ sampledTokens (generateEvents L s prompt maxTokens),
        L.vocab_is_eog (L.model_get_vocab model) t = false) ∧
      (refeedDecodes (generateEvents L s prompt maxTokens)).map Prod.snd
        = List.replicate (sampledTokens (generateEvents L s prompt maxTokens)).length 0 ∧
      (sampledTokens (generateEvents L s prompt maxTokens)).length = maxTokens.toNat ∧
      (generateCompletion L s prompt maxTokens).1
        = (sampledTokens (generateEvents L s prompt maxTokens)).flatMap
            (fragment L (L.model_get_vocab model))) := by
  rcases generate_observations L s prompt maxTokens model ctx smpl hm hc hs with
    ⟨hn', _, _⟩ | ⟨_, ds, d, _, hev, _, hlast, hne⟩ |
    ⟨_, ds, its, stop, hres, hev, _, heog, hdl, hlen, hcase⟩
  · omega
  · exfalso
    rw [hev, (observe_failure_events L model ctx prompt ds).1] at hok
    exact hne.1 (hok d (List.mem_of_getLast?_eq_some hlast))
  · obtain ⟨_, hrf, hsm, _⟩ := observe_success_events L model ctx smpl prompt
      (promptCount L model prompt) ds its stop
    rw [hev, hrf, hsm, hres, map_snd_refeedDecodes_refeedEvents]
    have heog' : ∀ t ∈ its.map Prod.fst, L.vocab_is_eog (L.model_get_vocab model) t = false := by
      intro t ht
      obtain ⟨it, hit, rfl⟩ := List.mem_map.mp ht
      exact heog it hit
    rcases hcase with ⟨e, hst, hee, hz, hl⟩ | ⟨hst, it, hlast, hne⟩ | ⟨hst, hz, hl⟩
    · left
      refine ⟨its.map Prod.fst, e, by rw [hst]; rfl, hee, heog', ?_, by simpa using hl, rfl⟩
      rw [List.eq_replicate_iff]
      refine ⟨by simp, ?_⟩
      intro r hr
      obtain ⟨it, hit, rfl⟩ := List.mem_map.mp hr
      exact hz it hit
    · right; left
      have hsplit : its.dropLast ++ [it] = its :=
        List.dropLast_append_getLast? it (by rw [hlast]; rfl)
      have hpos : 0 < its.length := by
        rw [← hsplit]; simp
      rw [hst, show (none : Option Int).toList = [] from rfl, List.append_nil]
      refine ⟨it.2, hne, heog', ?_, by simpa using hpos, by simpa using hlen, rfl⟩
      conv_lhs => rw [← hsplit]
      rw [List.map_append]
      congr 1
      rw [List.eq_replicate_iff]
      refine ⟨by simp, ?_⟩
      intro r hr
      obtain ⟨x, hx, rfl⟩ := List.mem_map.mp hr
      exact hdl x hx
    · right; right
      rw [hst, show (none : Option Int).toList = [] from rfl, List.append_nil]
      refine ⟨heog', ?_, by simpa using hl, rfl⟩
      rw [List.eq_replicate_iff]
      refine ⟨by simp, ?_⟩
      intro r hr
      obtain ⟨it, hit, rfl⟩ := List.mem_map.mp hr
      exact hz it hit

set_option maxRecDepth 100000 in
theorem generation_result_witness :
    (loadedState.g_model = some 1 ∧ loadedState.g_context = some 2 ∧
      loadedState.g_sampler = some 3 ∧
      0 ≤ promptCount (scripted [104, 105]) 1 ['H', 'i'] ∧
      ∀ d ∈ promptDecodes (generateEvents (scripted [104, 105]) loadedState ['H', 'i'] 5),
        d.2 = 0) ∧
    ((∃ (taken : List Int) (e : Int),
      sampledTokens (generateEvents (scripted [104, 105]) loadedState ['H', 'i'] 5)
        = taken ++ [e] ∧
      (scripted [104, 105]).vocab_is_eog ((scripted [104, 105]).model_get_vocab 1) e = true ∧
      (∀ t ∈ taken,
        (scripted [104, 105]).vocab_is_eog ((scripted [104, 105]).model_get_vocab 1) t = false) ∧
      (refeedDecodes (generateEvents (scripted [104, 105]) loadedState ['H', 'i'] 5)).map Prod.snd
        = List.replicate taken.length 0 ∧
      taken.length < (5 : Int).toNat ∧
      (generateCompletion (scripted [104, 105]) loadedState ['H', 'i'] 5).1
        = taken.flatMap (fragment (scripted [104, 105])
            ((scripted [104, 105]).model_get_vocab 1))) ∨
    (∃ r : Int, r ≠ 0 ∧
      (∀ t ∈ sampledTokens (generateEvents (scripted [104, 105]) loadedState ['H', 'i'] 5),
        (scripted [104, 105]).vocab_is_eog ((scripted [104, 105]).model_get_vocab 1) t = false) ∧
      (refeedDecodes (generateEvents (scripted [104, 105]) loadedState ['H', 'i'] 5)).map Prod.snd
        = List.replicate
            ((sampledTokens (generateEvents (scripted [104, 105]) loadedState
              ['H', 'i'] 5)).length - 1) 0 ++ [r] ∧
      0 < (sampledTokens (generateEvents (scripted [104, 105]) loadedState ['H', 'i'] 5)).length ∧
      (sampledTokens (generateEvents (scripted [104, 105]) loadedState ['H', 'i'] 5)).length
        ≤ (5 : Int).toNat ∧
      (generateCompletion (scripted [104, 105]) loadedState ['H', 'i'] 5).1
        = (sampledTokens (generateEvents (scripted [104, 105]) loadedState ['H', 'i'] 5)).flatMap
            (fragment (scripted [104, 105]) ((scripted [104, 105]).model_get_vocab 1))) ∨
    ((∀ t ∈ sampledTokens (generateEvents (scripted [104, 105]) loadedState ['H', 'i'] 5),
        (scripted [104, 105]).vocab_is_eog ((scripted [104, 105]).model_get_vocab 1) t = false) ∧
      (refeedDecodes (generateEvents (scripted [104, 105]) loadedState ['H', 'i'] 5)).map Prod.snd
        = List.replicate
            (sampledTokens (generateEvents (scripted [104, 105]) loadedState
              ['H', 'i'] 5)).length 0 ∧
      (sampledTokens (generateEvents (scripted [104, 105]) loadedState ['H', 'i'] 5)).length
        = (5 : Int).toNat ∧
      (generateCompletion (scripted [104, 105]) loadedState ['H', 'i'] 5).1
        = (sampledTokens (generateEvents (scripted [104, 105]) loadedState ['H', 'i'] 5)).flatMap
            (fragment (scripted [104, 105]) ((scripted [104, 105]).model_get_vocab 1)))) :=
  ⟨⟨by decide, by decide, by decide, by decide, by decide⟩,
    generation_result (scripted [104, 105]) loadedState ['H', 'i'] 5 1 2 3
      (by decide) (by decide) (by decide) (by decide) (by decide)⟩

/-- C6: on a loaded session with `n` prompt tokens, the `k`-th re-feed decode of
a `generateCompletion` call (`k = 0, 1, ...`) submits a batch of exactly one
entry: the `k`-th sampled token, at position `n + k`, with sequence id 0 and the
emit-logits flag set. -/
theorem refeed_positions (L : Llama) (s : State) (prompt : CppString)
    (maxTokens : Int) (model ctx smpl : Nat)
    (hm : s.g_model = some model) (hc : s.g_context = some ctx) (hs : s.g_sampler = some smpl) :
    ∀ (k : Nat) (b : llama_batch),
      ((refeedDecodes (generateEvents L s prompt maxTokens)).map Prod.fst)[k]? = some b →
      ∃ t, (sampledTokens (generateEvents L s prompt maxTokens))[k]? = some t ∧
        b = [⟨t, ((promptTokens L model prompt).length : Int) + (k : Int), [0], true⟩] := by
  intro k b hb
  rcases generate_observations L s prompt maxTokens model ctx smpl hm hc hs with
    ⟨_, _, hev⟩ | ⟨_, ds, d, _, hev, _⟩ | ⟨hn, ds, its, stop, _, hev, _⟩
  · rw [hev] at hb
    simp [refeedDecodes] at hb
  · rw [hev, (observe_failure_events L model ctx prompt ds).2.1] at hb
    simp at hb
  · obtain ⟨_, hrf, hsm, _⟩ := observe_success_events L model ctx smpl prompt
      (promptCount L model prompt) ds its stop
    rw [hev, hrf, List.getElem?_map, getElem?_refeedDecodes_refeedEvents] at hb
    rw [hev, hsm, promptCount_eq_length L model prompt hn]
    cases hit : its[k]? with
    | none => rw [hit] at hb; simp at hb
    | some it =>
      rw [hit] at hb
      simp only [Option.map_some', Option.some.injEq, add_zero] at hb
      have hk : k < its.length := by
        by_contra hge
        rw [List.getElem?_eq_none (by omega)] at hit
        cases hit
      refine ⟨it.1, ?_, hb.symm⟩
      rw [List.getElem?_append_left (by simpa using hk), List.getElem?_map, hit]
      rfl

theorem refeed_positions_witness :
    (loadedState.g_model = some 1 ∧ loadedState.g_context = some 2 ∧
      loadedState.g_sampler = some 3) ∧
    ∀ (k : Nat) (b : llama_batch),
      ((refeedDecodes (generateEvents (scripted [104, 105]) loadedState ['H', 'i'] 5)).map
        Prod.fst)[k]? = some b →
      ∃ t, (sampledTokens (generateEvents (scripted [104, 105]) loadedState ['H', 'i'] 5))[k]?
          = some t ∧
        b = [⟨t, ((promptTokens (scripted [104, 105]) 1 ['H', 'i']).length : Int) + (k : Int),
          [0], true⟩] :=
  ⟨⟨by decide, by decide, by decide⟩,
    refeed_positions (scripted [104, 105]) loadedState ['H', 'i'] 5 1 2 3
      (by decide) (by decide) (by decide)⟩

/-- C8: when some prompt decode of a `generateCompletion` call fails, the call
returns the empty string; the failing decode is its last library call but for
the single `llama_batch_free` that follows it, so no later batch is submitted,
the sampler is never called, and the batch is freed exactly once. -/
theorem prompt_decode_failure_fatal (L : Llama) (s : State) (prompt : CppString)
    (maxTokens : Int)
    (h : ∃ d ∈ promptDecodes (generateEvents L s prompt maxTokens), d.2 ≠ 0) :
    (generateCompletion L s prompt maxTokens).1 = [] ∧
    sampledTokens (generateEvents L s prompt maxTokens) = [] ∧
    refeedDecodes (generateEvents L s prompt maxTokens) = [] ∧
    batchFrees (generateEvents L s prompt maxTokens) = 1 ∧
    ∃ (pre : List Event) (c : Nat) (b : llama_batch) (r : Int),
      generateEvents L s prompt maxTokens
        = pre ++ [Event.decode DecodeSite.prompt c b r, Event.batch_free] ∧
      r ≠ 0 ∧ (∀ d ∈ promptDecodes pre, d.2 = 0) ∧ batchFrees pre = 0 := by
  obtain ⟨d0, hd0, hne0⟩ := h
  rcases loaded_or_not s with hu | ⟨model, ctx, smpl, hm, hc, hs⟩
  · rw [generateEvents_unloaded L s prompt maxTokens hu] at hd0
    simp [promptDecodes] at hd0
  · rcases generate_observations L s prompt maxTokens model ctx smpl hm hc hs with
      ⟨_, _, hev⟩ | ⟨_, ds, d, hres, hev, hdl, hlast, hne⟩ |
      ⟨_, ds, its, stop, _, hev, ⟨hz, _⟩, _⟩
    · rw [hev] at hd0
      simp [promptDecodes] at hd0
    · obtain ⟨_, o2, o3, o4⟩ := observe_failure_events L model ctx prompt ds
      have hsplit : ds.dropLast ++ [d] = ds :=
        List.dropLast_append_getLast? d (by rw [hlast]; rfl)
      refine ⟨hres, by rw [hev, o3], by rw [hev, o2], by rw [hev, o4], ?_⟩
      refine ⟨preludeEvents L model ctx prompt
        ++ decodeEvents DecodeSite.prompt ctx ds.dropLast, ctx, d.1, d.2, ?_, hne.1, ?_, ?_⟩
      · rw [hev]
        conv_lhs => rw [← hsplit]
        simp [decodeEvents]
      · rw [promptDecodes_append, (observe_preludeEvents L model ctx prompt).1,
          promptDecodes_decodeEvents]
        simpa using hdl
      · rw [batchFrees_append, (observe_preludeEvents L model ctx prompt).2.2.2,
          batchFrees_decodeEvents]
    · exfalso
      rw [hev, (observe_success_events L model ctx smpl prompt _ ds its stop).1] at hd0
      exact hne0 (hz d0 hd0)

set_option maxRecDepth 100000 in
theorem prompt_decode_failure_fatal_witness :
    (∃ d ∈ promptDecodes (generateEvents (scripted [104, 105]) loadedState ['H', '!'] 5),
      d.2 ≠ 0) ∧
    ((generateCompletion (scripted [104, 105]) loadedState ['H', '!'] 5).1 = [] ∧
    sampledTokens (generateEvents (scripted [104, 105]) loadedState ['H', '!'] 5) = [] ∧
    refeedDecodes (generateEvents (scripted [104, 105]) loadedState ['H', '!'] 5) = [] ∧
    batchFrees (generateEvents (scripted [104, 105]) loadedState ['H', '!'] 5) = 1 ∧
    ∃ (pre : List Event) (c : Nat) (b : llama_batch) (r : Int),
      generateEvents (scripted [104, 105]) loadedState ['H', '!'] 5
        = pre ++ [Event.decode DecodeSite.prompt c b r, Event.batch_free] ∧
      r ≠ 0 ∧ (∀ d ∈ promptDecodes pre, d.2 = 0) ∧ batchFrees pre = 0) :=
  ⟨by decide, prompt_decode_failure_fatal (scripted [104, 105]) loadedState ['H', '!'] 5
    (by decide)⟩

/-- C9: for every state, prompt and `maxTokens ≥ 0`, a `generateCompletion` call
makes at most `maxTokens` re-feed decodes and at most `maxTokens` sampler calls,
and its result is the concatenation of the fragments of the re-fed tokens, at
most `maxTokens` of them; with `maxTokens = 0` it returns the empty string
without sampling and without any re-feed decode. -/
theorem generation_budget (L : Llama) (s : State) (prompt : CppString)
    (maxTokens : Int) (h : 0 ≤ maxTokens) :
    ((refeedDecodes (generateEvents L s prompt maxTokens)).length : Int) ≤ maxTokens ∧
    ((sampledTokens (generateEvents L s prompt maxTokens)).length : Int) ≤ maxTokens ∧
    (generateCompletion L s prompt maxTokens).1
      = ((sampledTokens (generateEvents L s prompt maxTokens)).take
          (refeedDecodes (generateEvents L s prompt maxTokens)).length).flatMap
          (fragment L (sessionVocab L s)) ∧
    (maxTokens = 0 →
      (generateCompletion L s prompt maxTokens).1 = [] ∧
      sampledTokens (generateEvents L s prompt maxTokens) = [] ∧
      refeedDecodes (generateEvents L s prompt maxTokens) = []) := by
  have key : ((refeedDecodes (generateEvents L s prompt maxTokens)).length : Int) ≤ maxTokens ∧
      ((sampledTokens (generateEvents L s prompt maxTokens)).length : Int) ≤ maxTokens ∧
      (generateCompletion L s prompt maxTokens).1
        = ((sampledTokens (generateEvents L s prompt maxTokens)).take
            (refeedDecodes (generateEvents L s prompt maxTokens)).length).flatMap
            (fragment L (sessionVocab L s)) := by
    rcases loaded_or_not s with hu | ⟨model, ctx, smpl, hm, hc, hs⟩
    · rw [generateEvents_unloaded L s prompt maxTokens hu,
        generateCompletion_unloaded L s prompt maxTokens hu]
      exact ⟨by simpa [refeedDecodes] using h, by simpa [sampledTokens] using h, rfl⟩
    · have hv : sessionVocab L s = L.model_get_vocab model := by
        simp only [sessionVocab, hm]
      rcases generate_observations L s prompt maxTokens model ctx smpl hm hc hs with
        ⟨_, hres, hev⟩ | ⟨_, ds, d, hres, hev, _⟩ |
        ⟨_, ds, its, stop, hres, hev, _, _, _, hlen, hcase⟩
      · rw [hev, hres]
        exact ⟨by simpa [refeedDecodes] using h, by simpa [sampledTokens] using h, rfl⟩
      · obtain ⟨_, o2, o3, _⟩ := observe_failure_events L model ctx prompt ds
        rw [hev, hres, o2, o3]
        exact ⟨by simpa using h, by simpa using h, rfl⟩
      · obtain ⟨_, hrf, hsm, _⟩ := observe_success_events L model ctx smpl prompt
          (promptCount L model prompt) ds its stop
        rw [hev, hres, hrf, hsm, length_refeedDecodes_refeedEvents, hv]
        refine ⟨by omega, ?_, ?_⟩
        · rcases hcase with ⟨e, hst, _, _, hl⟩ | ⟨hst, _⟩ | ⟨hst, _⟩
          · rw [hst]; simp; omega
          · rw [hst]; simp; omega
          · rw [hst]; simp; omega
        · rw [List.take_left' (by simp)]
  refine ⟨key.1, key.2.1, key.2.2, ?_⟩
  intro h0
  have h1 : refeedDecodes (generateEvents L s prompt maxTokens) = [] :=
    List.eq_nil_of_length_eq_zero (by have := key.1; omega)
  have h2 : sampledTokens (generateEvents L s prompt maxTokens) = [] :=
    List.eq_nil_of_length_eq_zero (by have := key.2.1; omega)
  refine ⟨?_, h2, h1⟩
  rw [key.2.2, h2]
  simp

theorem generation_budget_witness :
    (0 : Int) ≤ 2 ∧
    (((refeedDecodes (generateEvents (scripted [104, 7, 105]) loadedState ['H', 'i'] 2)).length
        : Int) ≤ 2 ∧
    ((sampledTokens (generateEvents (scripted [104, 7, 105]) loadedState ['H', 'i'] 2)).length
        : Int) ≤ 2 ∧
    (generateCompletion (scripted [104, 7, 105]) loadedState ['H', 'i'] 2).1
      = ((sampledTokens (generateEvents (scripted [104, 7, 105]) loadedState ['H', 'i'] 2)).take
          (refeedDecodes (generateEvents (scripted [104, 7, 105]) loadedState
            ['H', 'i'] 2)).length).flatMap
          (fragment (scripted [104, 7, 105]) (sessionVocab (scripted [104, 7, 105]) loadedState)) ∧
    ((2 : Int) = 0 →
      (generateCompletion (scripted [104, 7, 105]) loadedState ['H', 'i'] 2).1 = [] ∧
      sampledTokens (generateEvents (scripted [104, 7, 105]) loadedState ['H', 'i'] 2) = [] ∧
      refeedDecodes (generateEvents (scripted [104, 7, 105]) loadedState ['H', 'i'] 2) = [])) :=
  ⟨by decide, generation_budget (scripted [104, 7, 105]) loadedState ['H', 'i'] 2 (by decide)⟩

/-! ## The session resource invariant -/

theorem alive_append (tr evs : List Event) :
    alive (tr ++ evs) = evs.foldl Live.step (alive tr) := by
  simp [alive, List.foldl_append]

theorem foldl_step_decodeEvents (site : DecodeSite) (ctx : Nat) (ds : List (llama_batch × Int))
    (a : Live) : (decodeEvents site ctx ds).foldl Live.step a = a := by
  induction ds with
  | nil => rfl
  | cons d ds ih =>
    simp only [decodeEvents, List.map_cons, List.foldl_cons] at ih ⊢
    exact ih

theorem foldl_step_refeedEvents (ctx smpl : Nat) (n : Int) (its : List (Int × Int)) (a : Live) :
    ∀ k, (refeedEvents ctx smpl n k its).foldl Live.step a = a := by
  induction its with
  | nil => intro k; rfl
  | cons it its ih =>
    intro k
    obtain ⟨t, r⟩ := it
    rw [refeedEvents, List.foldl_append]
    exact ih (k + 1)

theorem foldl_step_stopEvents (ctx smpl : Nat) (stop : Option Int) (a : Live) :
    (stopEvents ctx smpl stop).foldl Live.step a = a := by
  cases stop <;> rfl

theorem strongInv_generateCompletion (L : Llama) (s : State) (prompt : CppString)
    (maxTokens : Int) (h : StrongInv s) :
    StrongInv (generateCompletion L s prompt maxTokens).2 := by
  rcases loaded_or_not s with hu | ⟨model, ctx, smpl, hm, hc, hs⟩
  · rw [generateCompletion_unloaded L s prompt maxTokens hu]
    exact h
  · rcases generateCompletion_anatomy L s prompt maxTokens model ctx smpl hm hc hs with
      ⟨_, heq⟩ | ⟨_, ds, d, heq, _⟩ | ⟨_, ds, its, stop, heq, _⟩
    · rw [heq]
      refine ⟨?_, h.2⟩
      simp only [alive_append]
      exact h.1
    · rw [heq]
      refine ⟨?_, h.2⟩
      simp only [alive_append, List.foldl_append, preludeEvents, foldl_step_decodeEvents]
      exact h.1
    · rw [heq]
      refine ⟨?_, h.2⟩
      simp only [alive_append, List.foldl_append, preludeEvents, foldl_step_decodeEvents,
        foldl_step_refeedEvents, foldl_step_stopEvents]
      exact h.1

theorem strongInv_unload (s : State) (h : StrongInv s) : StrongInv (unload s) := by
  obtain ⟨m, c, x, tr⟩ := s
  obtain ⟨ha, _⟩ := h
  simp only at ha
  cases m <;> cases c <;> cases x <;>
    simp [unload, StrongInv, alive_append, ha, Live.step]

theorem strongInv_loadModel (L : Llama) (s : State) (model_path : CppString)
    (nCtx nThreads nGpuLayers : Int) (h : StrongInv s) (hm : s.g_model = none) :
    StrongInv (loadModel L s model_path nCtx nThreads nGpuLayers).2 := by
  obtain ⟨m, c, x, tr⟩ := s
  obtain ⟨ha, hnone⟩ := h
  simp only at hm ha hnone
  obtain ⟨hc, hx⟩ := hnone hm
  subst hm hc hx
  unfold loadModel
  cases h1 : L.model_load_from_file tr model_path nGpuLayers with
  | none => simp [StrongInv, alive_append, ha, Live.step]
  | some model =>
    cases h2 : L.init_from_model
        (tr ++ [Event.model_load_from_file model_path nGpuLayers (some model)])
        model nCtx 512 nThreads with
    | none => simp [StrongInv, alive_append, ha, Live.step, h2]
    | some ctx => simp [StrongInv, alive_append, ha, Live.step, h2]

theorem strongInv_run (L : Llama) :
    ∀ (ops : List Op) (s : State), StrongInv s → loadsOnlyUnloaded L s ops = true →
      StrongInv (run L s ops) := by
  intro ops
  induction ops with
  | nil => intro s h _; exact h
  | cons op ops ih =>
    intro s h hd
    cases op with
    | loadModel p c t g =>
      simp only [loadsOnlyUnloaded, Bool.and_eq_true, Option.isNone_iff_eq_none] at hd
      exact ih _ (strongInv_loadModel L s p c t g h hd.1) hd.2
    | generateCompletion p m =>
      simp only [loadsOnlyUnloaded, step] at hd
      exact ih _ (strongInv_generateCompletion L s p m h) hd
    | unload =>
      simp only [loadsOnlyUnloaded, step] at hd
      exact ih _ (strongInv_unload s h) hd

theorem sessionInv_of_strongInv (s : State) (h : StrongInv s) : SessionInv s := by
  obtain ⟨m, c, x, tr⟩ := s
  obtain ⟨ha, _⟩ := h
  simp only at ha
  unfold SessionInv
  simp only [ha]
  cases m <;> cases c <;> cases x <;> simp

/-- C7 fails: after two successful `loadModel` calls on the scripted library,
models 1 and 8 are both live while `g_model` holds only model 8 (and likewise
contexts 2 and 9, sampler chains 3 and 10), so the invariant does not hold. -/
theorem reload_orphans_previous_triple :
    (alive (run (scripted []) State.init
      [Op.loadModel goodPath 128 1 0, Op.loadModel goodPath 128 1 0]).trace)
      = ⟨[1, 8], [2, 9], [3, 10]⟩ ∧
    (run (scripted []) State.init
      [Op.loadModel goodPath 128 1 0, Op.loadModel goodPath 128 1 0]).g_model = some 8 ∧
    ¬ SessionInv (run (scripted []) State.init
      [Op.loadModel goodPath 128 1 0, Op.loadModel goodPath 128 1 0]) := by
  have ha : (alive (run (scripted []) State.init
      [Op.loadModel goodPath 128 1 0, Op.loadModel goodPath 128 1 0]).trace)
      = ⟨[1, 8], [2, 9], [3, 10]⟩ := by decide
  refine ⟨ha, by decide, ?_⟩
  intro h
  have h1 := h.1.1
  rw [ha] at h1
  simp at h1

/-- C7, amended: in every state reached from the initial one by a sequence of
`loadModel`, `generateCompletion` and `unload` calls in which each `loadModel`
call is made while no model is held, at most one model, one context and one
sampler chain are live, and each live one is the one the session holds. -/
theorem session_invariant (L : Llama) (ops : List Op)
    (h : loadsOnlyUnloaded L State.init ops = true) :
    SessionInv (run L State.init ops) := by
  have h0 : StrongInv State.init := ⟨rfl, fun _ => ⟨rfl, rfl⟩⟩
  exact sessionInv_of_strongInv _ (strongInv_run L ops State.init h0 h)

set_option maxRecDepth 100000 in
theorem session_invariant_witness :
    loadsOnlyUnloaded (scripted [104, 105]) State.init disciplinedOps = true ∧
    SessionInv (run (scripted [104, 105]) State.init disciplinedOps) :=
  ⟨by decide, session_invariant (scripted [104, 105]) disciplinedOps (by decide)⟩

/-! ## Concrete runs on the scripted library -/

set_option maxRecDepth 100000 in
/-- A run that ends on an end-of-generation token: the prompt `Hi` is decoded in
one batch with the flag on its last entry, tokens 104 and 105 are re-fed at
positions 2 and 3, and the third sample ends the loop. -/
theorem run_end_of_generation :
    generateCompletion (scripted [104, 105]) loadedState ['H', 'i'] 5
      = (['o', 'k', 'o', 'k'], { loadedState with trace := loadedState.trace ++
          [Event.tokenize 1 ['H', 'i'] 130 2, Event.memory_clear 2, Event.batch_init 512,
           Event.decode DecodeSite.prompt 2 [⟨72, 0, [0], false⟩, ⟨105, 1, [0], true⟩] 0,
           Event.sampler_sample 3 2 (-1) 104, Event.sampler_accept 3 104,
           Event.decode DecodeSite.refeed 2 [⟨104, 2, [0], true⟩] 0,
           Event.sampler_sample 3 2 (-1) 105, Event.sampler_accept 3 105,
           Event.decode DecodeSite.refeed 2 [⟨105, 3, [0], true⟩] 0,
           Event.sampler_sample 3 2 (-1) 2, Event.sampler_accept 3 2,
           Event.batch_free] }) := by
  decide

set_option maxRecDepth 100000 in
/-- A run whose second re-feed decode fails: the piece of the token whose decode
failed is part of the returned text. -/
theorem run_refeed_failure :
    (generateCompletion (scripted [104, 133, 105]) loadedState ['H', 'i'] 5).1
      = ['o', 'k', 'o', 'k'] ∧
    sampledTokens (generateEvents (scripted [104, 133, 105]) loadedState ['H', 'i'] 5)
      = [104, 133] ∧
    refeedDecodes (generateEvents (scripted [104, 133, 105]) loadedState ['H', 'i'] 5)
      = [([⟨104, 2, [0], true⟩], 0), ([⟨133, 3, [0], true⟩], 1)] ∧
    batchFrees (generateEvents (scripted [104, 133, 105]) loadedState ['H', 'i'] 5) = 1 := by
  decide

set_option maxRecDepth 100000 in
/-- A run that uses up its budget of two tokens; token 7 has an empty piece. -/
theorem run_budget_exhausted :
    (generateCompletion (scripted [104, 7, 105]) loadedState ['H', 'i'] 2).1 = ['o', 'k'] ∧
    sampledTokens (generateEvents (scripted [104, 7, 105]) loadedState ['H', 'i'] 2)
      = [104, 7] ∧
    refeedDecodes (generateEvents (scripted [104, 7, 105]) loadedState ['H', 'i'] 2)
      = [([⟨104, 2, [0], true⟩], 0), ([⟨7, 3, [0], true⟩], 0)] := by
  decide

set_option maxRecDepth 100000 in
/-- A run whose prompt decode fails: nothing is sampled and the batch is freed. -/
theorem run_prompt_failure :
    generateCompletion (scripted [104, 105]) loadedState ['H', '!'] 5
      = ([], { loadedState with trace := loadedState.trace ++
          [Event.tokenize 1 ['H', '!'] 130 2, Event.memory_clear 2, Event.batch_init 512,
           Event.decode DecodeSite.prompt 2 [⟨72, 0, [0], false⟩, ⟨33, 1, [0], true⟩] 1,
           Event.batch_free] }) := by
  decide

end MedGemma
